import Mathlib

/-!
Verification of the vulntrack-legacy-backend scan pipeline.

This file gives a shallow embedding, in Lean 4, of the parts of the
repository that the specification talks about:

* `app/services/external_apis_backup.py` — the rate-limited Brave search
  client (`_wait_for_rate_limit`, `search_vulnerabilities`) and the Gemini
  filter (`filter_vulnerability_results`) with its markdown-fence stripping;
* `app/core/tasks.py` — `run_web_ai_scan`, the worker that persists a scan
  result: patches the scan job, normalizes and writes findings, deduplicates
  catalog entries by CVE id, and emits a notification;
* `app/api/v1/endpoints/scan.py` — `trigger_batch_scan` and `list_scans`.

Python strings are modelled as `List Char` where their character-level
behaviour matters (stripping, fence detection, lowercasing) and as `String`
where they are only carried around.  Python floats are modelled as `ℚ`.
Fallible REST calls are modelled with an explicit failure oracle indexed by
the position of the call in the run.
-/

/-! ## Python-style string primitives (over `List Char`) -/

/-- Characters treated as whitespace by `str.strip()` (the subset relevant
to the texts handled here, identical to JSON whitespace). -/
def pySpace (c : Char) : Bool :=
  c = ' ' || c = '\n' || c = '\t' || c = '\r'

/-- Left part of Python `str.strip()`. -/
def pyStripL (s : List Char) : List Char := s.dropWhile pySpace

/-- Right part of Python `str.strip()`. -/
def pyStripR (s : List Char) : List Char :=
  (s.reverse.dropWhile pySpace).reverse

/-- Python `str.strip()`. -/
def pyStrip (s : List Char) : List Char := pyStripR (pyStripL s)

/-- Python `str.startswith(p)`. -/
def pyStartsWith (p s : List Char) : Bool := p.isPrefixOf s

/-- Python `str.endswith(p)`. -/
def pyEndsWith (p s : List Char) : Bool := p.reverse.isPrefixOf s.reverse

/-- Drop `n` characters from the right; together with `List.drop` this is
Python's slice `s[a:-b]` (`s[a:-b] = pyDropR b (List.drop a s)`). -/
def pyDropR (n : Nat) (s : List Char) : List Char := (s.reverse.drop n).reverse

/-- ASCII lowercasing of one character, as Python `str.lower()` does on
ASCII input. -/
def pyLowerChar (c : Char) : Char :=
  if 'A' ≤ c ∧ c ≤ 'Z' then Char.ofNat (c.toNat + 32) else c

/-- Python `str.lower()` on a `String` carrying ASCII text. -/
def pyLower (s : String) : String := String.mk (s.data.map pyLowerChar)

/-! ## Rate limiter (`BraveSearchService._wait_for_rate_limit`,
`external_apis_backup.py` lines 32–44)

`_rate_limit_delay` is 1 second.  The method reads the clock, sleeps for
`1 - (now - last_request_time)` seconds when that is positive, then stores a
fresh clock reading in `_last_request_time` and the request is issued.

A sequence of sequential calls on one instance is modelled as a list of
pairs `(t, w)`: `t` is the first clock reading of the call and `w` the
second one (taken after the sleep, just before the request is issued).  A
trace is well-formed when each `w` is at least `t` plus the requested sleep
time — `asyncio.sleep` never wakes early and the second reading can only be
later. -/

/-- Sleep time requested by `_wait_for_rate_limit` given the stored
`_last_request_time` and the current clock reading. -/
def rate_limit_sleep (last now : ℚ) : ℚ :=
  if now - last < 1 then 1 - (now - last) else 0

/-- Issue times of the calls of a trace: each call's request goes out at its
second clock reading `w`, which becomes the new `_last_request_time`. -/
def rate_limit_issue_times : ℚ → List (ℚ × ℚ) → List ℚ
  | _, [] => []
  | _, (_, w) :: rest => w :: rate_limit_issue_times w rest

/-- Well-formedness of a trace: the post-sleep clock reading of each call is
at least the pre-sleep reading plus the sleep `_wait_for_rate_limit` asked
for. -/
def rate_limit_ok : ℚ → List (ℚ × ℚ) → Bool
  | _, [] => true
  | last, (t, w) :: rest =>
      decide (t + rate_limit_sleep last t ≤ w) && rate_limit_ok w rest

theorem rate_limit_sleep_lower (last now : ℚ) :
    last + 1 ≤ now + rate_limit_sleep last now := by
  unfold rate_limit_sleep
  split <;> linarith

theorem rate_limit_issue_times_length (last : ℚ) (tr : List (ℚ × ℚ)) :
    (rate_limit_issue_times last tr).length = tr.length := by
  induction tr generalizing last with
  | nil => rfl
  | cons p rest ih => simpa [rate_limit_issue_times] using ih p.2

/-- Every issue time of a well-formed trace is at least the stored last
request time plus one second, and the spacing invariant propagates. -/
theorem rate_limit_chain (last : ℚ) (tr : List (ℚ × ℚ))
    (h : rate_limit_ok last tr = true) :
    List.Chain' (fun a b => a + 1 ≤ b) (rate_limit_issue_times last tr) ∧
      ∀ a ∈ (rate_limit_issue_times last tr).head?, last + 1 ≤ a := by
  induction tr generalizing last with
  | nil => simp [rate_limit_issue_times]
  | cons p rest ih =>
      obtain ⟨t, w⟩ := p
      simp only [rate_limit_ok, Bool.and_eq_true, decide_eq_true_eq] at h
      obtain ⟨hw, hrest⟩ := h
      have hlw : last + 1 ≤ w := le_trans (rate_limit_sleep_lower last t) hw
      obtain ⟨hchain, hhead⟩ := ih w hrest
      refine ⟨?_, ?_⟩
      · simp only [rate_limit_issue_times]
        exact List.chain'_cons'.mpr ⟨hhead, hchain⟩
      · intro a ha
        simp only [rate_limit_issue_times, List.head?_cons,
          Option.mem_def, Option.some.injEq] at ha
        subst ha
        exact hlw

theorem chain_one_le_span {l : List ℚ}
    (h : List.Chain' (fun a b => a + 1 ≤ b) l) :
    ∀ a ∈ l.head?, ∀ b ∈ l.getLast?, (l.length : ℚ) - 1 ≤ b - a := by
  induction l with
  | nil => simp
  | cons x rest ih =>
      intro a ha b hb
      simp only [List.head?_cons, Option.mem_def, Option.some.injEq] at ha
      subst ha
      cases rest with
      | nil =>
          simp only [List.getLast?_singleton, Option.mem_def,
            Option.some.injEq] at hb
          subst hb; simp
      | cons y rest' =>
          have hxy : x + 1 ≤ y := (List.chain'_cons.mp h).1
          have hch : List.Chain' (fun a b => a + 1 ≤ b) (y :: rest') :=
            (List.chain'_cons.mp h).2
          have hb' : b ∈ (y :: rest').getLast? := by
            simpa [List.getLast?_cons_cons] using hb
          have := ih hch y (by simp) b hb'
          have hlen : ((x :: y :: rest').length : ℚ)
              = ((y :: rest').length : ℚ) + 1 := by
            push_cast [List.length_cons]; ring
          rw [hlen]
          linarith

theorem rate_limit_sleep_nonneg (last now : ℚ) : 0 ≤ rate_limit_sleep last now := by
  unfold rate_limit_sleep
  split <;> linarith

/-- **C4.** For every sequence of N consecutive search calls issued through
one rate-limited client instance (`BraveSearchService` of
`external_apis_backup.py`, whose `_wait_for_rate_limit` tracks the time of
the instance's last call and sleeps out the remaining delta before the next
request), successive requests are issued at least 1 second apart, and the
whole sequence spans at least (N−1) seconds from the first call's start to
the last request's issue. -/
theorem C4_rate_limited_search_spacing (last : ℚ) (tr : List (ℚ × ℚ))
    (h : rate_limit_ok last tr = true) :
    List.Chain' (fun a b => a + 1 ≤ b) (rate_limit_issue_times last tr) ∧
      (∀ t0 w0, tr.head? = some (t0, w0) →
        ∀ b ∈ (rate_limit_issue_times last tr).getLast?,
          (tr.length : ℚ) - 1 ≤ b - t0) := by
  obtain ⟨hchain, _⟩ := rate_limit_chain last tr h
  refine ⟨hchain, ?_⟩
  intro t0 w0 h0 b hb
  cases tr with
  | nil => simp at h0
  | cons p rest =>
      simp only [List.head?_cons, Option.some.injEq] at h0
      subst h0
      simp only [rate_limit_ok, Bool.and_eq_true, decide_eq_true_eq] at h
      have htw : t0 ≤ w0 := by
        have := rate_limit_sleep_nonneg last t0
        linarith [h.1]
      have hspan := chain_one_le_span hchain w0 (by simp [rate_limit_issue_times]) b hb
      have hlen : ((rate_limit_issue_times last ((t0, w0) :: rest)).length : ℚ)
          = (((t0, w0) :: rest).length : ℚ) := by
        rw [rate_limit_issue_times_length]
      rw [hlen] at hspan
      linarith

theorem C4_rate_limited_search_spacing_witness :
    rate_limit_ok 0 [(0, 1), (1, 2), (2, 3)] = true ∧
      List.Chain' (fun a b => a + 1 ≤ b)
        (rate_limit_issue_times 0 [(0, 1), (1, 2), (2, 3)]) :=
  ⟨by simp [rate_limit_ok, rate_limit_sleep, one_add_one_eq_two, two_add_one_eq_three],
    (C4_rate_limited_search_spacing 0 [(0, 1), (1, 2), (2, 3)]
      (by simp [rate_limit_ok, rate_limit_sleep, one_add_one_eq_two, two_add_one_eq_three])).1⟩

/-! ## Brave search response classification
(`BraveSearchService.search_vulnerabilities`,
`external_apis_backup.py` lines 94–165)

One call issues exactly one HTTP attempt; the attempt's outcome (a status
code with a body, a raised timeout, or any other raised exception) is
classified into the returned value.  The 429 branch additionally sleeps a
fixed 2 seconds inside the call before returning. -/

inductive BraveValue (J : Type) where
  | payload (data : J) : BraveValue J
  | fault (code : String) (details : Option String) (retry_after : Option ℚ) :
      BraveValue J
  deriving DecidableEq

/-- Result of one `search_vulnerabilities` call: the extra self-throttle
delay slept inside the call, and the returned dictionary. -/
structure BraveReply (J : Type) where
  extra_sleep : ℚ
  reply : BraveValue J
  deriving DecidableEq

inductive HttpAttempt (J : Type) where
  | response (status : Nat) (body : J) : HttpAttempt J
  | timeoutRaised : HttpAttempt J
  | raised (msg : String) : HttpAttempt J
  deriving DecidableEq

/-- The status/exception dispatch of `search_vulnerabilities`
(`external_apis_backup.py` lines 94–165), branch for branch. -/
def search_vulnerabilities_classify {J : Type} :
    HttpAttempt J → BraveReply J
  | .response st body =>
      if st = 200 then ⟨0, .payload body⟩
      else if st = 301 then
        ⟨0, .fault "url_redirect" (some "API URL might be incorrect") none⟩
      else if st = 401 then ⟨0, .fault "invalid_api_key" none none⟩
      else if st = 429 then
        ⟨2, .fault "rate_limit_exceeded"
          (some "Request rate limit exceeded. Try again later.") (some 2)⟩
      else ⟨0, .fault ("api_error_" ++ toString st) none none⟩
  | .timeoutRaised => ⟨0, .fault "timeout" none none⟩
  | .raised m => ⟨0, .fault m none none⟩

/-- A `search_vulnerabilities` call consumes exactly one HTTP attempt from
the available ones: no retry happens inside the client. -/
def search_vulnerabilities_once {J : Type} :
    List (HttpAttempt J) → Option (BraveReply J × List (HttpAttempt J))
  | [] => none
  | h :: rest => some (search_vulnerabilities_classify h, rest)

/-- **C6.** Every search call is classified as: HTTP 200 → the structured
payload; 401 → invalid_api_key; 429 → an additional fixed 2-second
self-throttle and rate_limit_exceeded carrying retry_after; 301 →
url_redirect; network timeout → timeout; any other failure → its message
(an api_error_status code for other HTTP statuses); and the call consumes
exactly one HTTP attempt — the client never retries. -/
theorem C6_search_response_classification {J : Type} (d : J) (n : Nat)
    (m : String) (h : HttpAttempt J) (rest : List (HttpAttempt J)) :
    search_vulnerabilities_classify (.response 200 d) = ⟨0, .payload d⟩ ∧
    search_vulnerabilities_classify (J := J) (.response 401 d)
      = ⟨0, .fault "invalid_api_key" none none⟩ ∧
    search_vulnerabilities_classify (J := J) (.response 429 d)
      = ⟨2, .fault "rate_limit_exceeded"
          (some "Request rate limit exceeded. Try again later.") (some 2)⟩ ∧
    search_vulnerabilities_classify (J := J) (.response 301 d)
      = ⟨0, .fault "url_redirect" (some "API URL might be incorrect") none⟩ ∧
    search_vulnerabilities_classify (J := J) .timeoutRaised
      = ⟨0, .fault "timeout" none none⟩ ∧
    search_vulnerabilities_classify (J := J) (.raised m)
      = ⟨0, .fault m none none⟩ ∧
    (n ≠ 200 → n ≠ 301 → n ≠ 401 → n ≠ 429 →
      search_vulnerabilities_classify (.response n d)
        = ⟨0, .fault ("api_error_" ++ toString n) none none⟩) ∧
    search_vulnerabilities_once (h :: rest)
      = some (search_vulnerabilities_classify h, rest) := by
  refine ⟨rfl, rfl, rfl, rfl, rfl, rfl, ?_, rfl⟩
  intro h200 h301 h401 h429
  simp [search_vulnerabilities_classify, h200, h301, h401, h429]

theorem C6_search_response_classification_witness :
    search_vulnerabilities_classify (J := Nat) (.response 500 7)
      = ⟨0, .fault "api_error_500" none none⟩ :=
  (C6_search_response_classification (J := Nat) 7 500 "x"
      (.response 500 7) []).2.2.2.2.2.2.1
    (by decide) (by decide) (by decide) (by decide)

/-! ## Gemini filter fence handling and JSON parsing
(`GeminiAIService.filter_vulnerability_results`,
`external_apis_backup.py` lines 236–255)

The generated text is stripped, a single leading/trailing markdown fence
(```` ```json … ``` ```` or ```` ``` … ``` ````) is removed if present, and
the remainder is given to `json.loads`; a parse failure returns a fallback
dictionary that carries the original (unstripped, fence included) text as
`raw_response`.

`json.loads` is modelled by a small executable recursive-descent JSON
reader over `List Char` (fuelled by the input length; `\uXXXX` escapes are
kept literally, which is irrelevant to the texts considered here). -/

/-- The backquote character. -/
def bq : Char := Char.ofNat 96

/-- The three-backquote fence delimiter. -/
def fence3 : List Char := [bq, bq, bq]

/-- The ```` ```json ```` fence opener. -/
def fenceJson : List Char := [bq, bq, bq, 'j', 's', 'o', 'n']

inductive Json where
  | jnull : Json
  | jbool (b : Bool) : Json
  | jnum (digits : List Char) : Json
  | jstr (s : List Char) : Json
  | jarr (xs : List Json) : Json
  | jobj (kvs : List (List Char × Json)) : Json

def jsonSkipWs (s : List Char) : List Char := s.dropWhile pySpace

def jsonNumChar (c : Char) : Bool :=
  c.isDigit || c = '-' || c = '+' || c = '.' || c = 'e' || c = 'E'

def jsonUnescape (c : Char) : Char :=
  if c = 'n' then '\n' else if c = 't' then '\t' else if c = 'r' then '\r' else c

/-- Body of a JSON string after the opening quote. -/
def jsonStrBody : Nat → List Char → Option (List Char × List Char)
  | 0, _ => none
  | _ + 1, [] => none
  | fuel + 1, c :: r =>
    if c = '"' then some ([], r)
    else if c = '\\' then
      match r with
      | [] => none
      | e :: r2 =>
        match jsonStrBody fuel r2 with
        | some (cs, r3) => some (jsonUnescape e :: cs, r3)
        | none => none
    else
      match jsonStrBody fuel r with
      | some (cs, r3) => some (c :: cs, r3)
      | none => none

mutual

def jsonVal : Nat → List Char → Option (Json × List Char)
  | 0, _ => none
  | fuel + 1, s =>
    match jsonSkipWs s with
    | [] => none
    | c :: r =>
      if c = 'n' then
        if ['u', 'l', 'l'].isPrefixOf r then some (.jnull, r.drop 3) else none
      else if c = 't' then
        if ['r', 'u', 'e'].isPrefixOf r then some (.jbool true, r.drop 3)
        else none
      else if c = 'f' then
        if ['a', 'l', 's', 'e'].isPrefixOf r then some (.jbool false, r.drop 4)
        else none
      else if c = '"' then
        match jsonStrBody fuel r with
        | some (cs, r2) => some (.jstr cs, r2)
        | none => none
      else if c = '[' then
        match jsonSkipWs r with
        | ']' :: r2 => some (.jarr [], r2)
        | r2 =>
          match jsonItems fuel r2 with
          | some (vs, r3) => some (.jarr vs, r3)
          | none => none
      else if c = Char.ofNat 123 then
        match jsonSkipWs r with
        | [] => none
        | d :: r2 =>
          if d = Char.ofNat 125 then some (.jobj [], r2)
          else
            match jsonMembers fuel (d :: r2) with
            | some (kvs, r3) => some (.jobj kvs, r3)
            | none => none
      else if c.isDigit || c = '-' then
        some (.jnum ((c :: r).takeWhile jsonNumChar), (c :: r).dropWhile jsonNumChar)
      else none

def jsonItems : Nat → List Char → Option (List Json × List Char)
  | 0, _ => none
  | fuel + 1, s =>
    match jsonVal fuel s with
    | none => none
    | some (v, r) =>
      match jsonSkipWs r with
      | ',' :: r2 =>
        match jsonItems fuel r2 with
        | some (vs, r3) => some (v :: vs, r3)
        | none => none
      | ']' :: r2 => some ([v], r2)
      | _ => none

def jsonMembers : Nat → List Char → Option (List (List Char × Json) × List Char)
  | 0, _ => none
  | fuel + 1, s =>
    match jsonSkipWs s with
    | '"' :: r =>
      match jsonStrBody fuel r with
      | some (k, r2) =>
        match jsonSkipWs r2 with
        | ':' :: r3 =>
          match jsonVal fuel r3 with
          | none => none
          | some (v, r4) =>
            match jsonSkipWs r4 with
            | ',' :: r5 =>
              match jsonMembers fuel r5 with
              | some (kvs, r6) => some ((k, v) :: kvs, r6)
              | none => none
            | d :: r5 => if d = Char.ofNat 125 then some ([(k, v)], r5) else none
            | [] => none
        | _ => none
      | none => none
    | _ => none

end

/-- Model of Python `json.loads`: parse one value, then require only
whitespace to remain; anything else raises `JSONDecodeError` (`none`). -/
def jsonLoads (s : List Char) : Option Json :=
  match jsonVal (s.length + 2) s with
  | some (v, r) => if jsonSkipWs r = [] then some v else none
  | none => none

/-- The fence-stripping step of `filter_vulnerability_results`
(`external_apis_backup.py` lines 238–250): strip, remove a single
```` ```json … ``` ```` or ```` ``` … ``` ```` fence if present
(Python slices `[7:-3]` and `[3:-3]`), strip again. -/
def cleanGeminiText (s : List Char) : List Char :=
  if pyStartsWith fenceJson (pyStrip s) && pyEndsWith fence3 (pyStrip s) then
    pyStrip (pyDropR 3 ((pyStrip s).drop 7))
  else if pyStartsWith fence3 (pyStrip s) && pyEndsWith fence3 (pyStrip s) then
    pyStrip (pyDropR 3 ((pyStrip s).drop 3))
  else pyStrip s

/-- Result of the Gemini response-parsing step: either the parsed analysis,
or the fallback dictionary whose `raw_response` carries the original
generated text. -/
inductive GeminiOutcome where
  | parsed (j : Json) : GeminiOutcome
  | parseFailure (raw_response : List Char) : GeminiOutcome

/-- The parsing step of `filter_vulnerability_results` applied to the
generated text (HTTP 200 branch, `external_apis_backup.py` lines 236–265). -/
def filter_vulnerability_results (result_text : List Char) : GeminiOutcome :=
  match jsonLoads (cleanGeminiText result_text) with
  | some j => .parsed j
  | none => .parseFailure result_text

/-- Text wrapped in a leading/trailing ```` ```json ```` fence. -/
def wrapJsonFence (t : List Char) : List Char :=
  fenceJson ++ '\n' :: t ++ '\n' :: fence3

/-- Text wrapped in a leading/trailing bare ```` ``` ```` fence. -/
def wrapBareFence (t : List Char) : List Char :=
  fence3 ++ '\n' :: t ++ '\n' :: fence3

theorem dropWhile_append_char (p : Char → Bool) (a b : List Char) :
    List.dropWhile p (a ++ b)
      = if List.dropWhile p a = [] then List.dropWhile p b
        else List.dropWhile p a ++ b := by
  induction a with
  | nil => simp
  | cons c a ih =>
      by_cases h : p c
      · simpa [List.dropWhile_cons, h] using ih
      · simp [List.dropWhile_cons, h]

theorem pyStripR_concat_space {c : Char} (l : List Char) (h : pySpace c = true) :
    pyStripR (l ++ [c]) = pyStripR l := by
  simp [pyStripR, List.dropWhile_cons, h]

theorem pyStripR_concat_keep {c : Char} (l : List Char) (h : pySpace c = false) :
    pyStripR (l ++ [c]) = l ++ [c] := by
  simp [pyStripR, List.dropWhile_cons, h]

theorem pySpace_nl : pySpace '\n' = true := by decide

theorem pyStrip_sandwich (t : List Char) :
    pyStrip ('\n' :: t ++ ['\n']) = pyStrip t := by
  unfold pyStrip
  have h1 : pyStripL ('\n' :: t ++ ['\n']) = pyStripL (t ++ ['\n']) := by
    simp [pyStripL, List.dropWhile_cons, pySpace_nl]
  rw [h1]
  unfold pyStripL
  rw [dropWhile_append_char]
  by_cases h : List.dropWhile pySpace t = []
  · rw [if_pos h]
    have h2 : List.dropWhile pySpace ['\n'] = ([] : List Char) := by decide
    rw [h2, h]
  · rw [if_neg h]
    exact pyStripR_concat_space _ pySpace_nl

theorem pySpace_bq : pySpace bq = false := by decide

theorem wrapJson_eq_concat (t : List Char) :
    wrapJsonFence t = (fenceJson ++ '\n' :: t ++ ['\n', bq, bq]) ++ [bq] := by
  simp [wrapJsonFence, fence3]

theorem wrapBare_eq_concat (t : List Char) :
    wrapBareFence t = (fence3 ++ '\n' :: t ++ ['\n', bq, bq]) ++ [bq] := by
  simp [wrapBareFence, fence3]

theorem pyStrip_wrapJson (t : List Char) :
    pyStrip (wrapJsonFence t) = wrapJsonFence t := by
  have h1 : pyStripL (wrapJsonFence t) = wrapJsonFence t := rfl
  unfold pyStrip
  rw [h1, wrapJson_eq_concat, pyStripR_concat_keep _ pySpace_bq,
    ← wrapJson_eq_concat]

theorem pyStrip_wrapBare (t : List Char) :
    pyStrip (wrapBareFence t) = wrapBareFence t := by
  have h1 : pyStripL (wrapBareFence t) = wrapBareFence t := rfl
  unfold pyStrip
  rw [h1, wrapBare_eq_concat, pyStripR_concat_keep _ pySpace_bq,
    ← wrapBare_eq_concat]

theorem endsWith3_concat (l : List Char) :
    pyEndsWith fence3 (l ++ '\n' :: fence3) = true := by
  unfold pyEndsWith
  have h : (l ++ '\n' :: fence3).reverse = bq :: bq :: bq :: '\n' :: l.reverse := by
    simp [fence3]
  rw [h]
  rfl

theorem pyDropR3_sandwich (x : List Char) :
    pyDropR 3 (x ++ '\n' :: fence3) = x ++ ['\n'] := by
  unfold pyDropR
  have h : (x ++ '\n' :: fence3).reverse = bq :: bq :: bq :: '\n' :: x.reverse := by
    simp [fence3]
  rw [h]
  simp

theorem isPrefixOf_append_left (p q l : List Char)
    (h : (p ++ q).isPrefixOf l = true) : p.isPrefixOf l = true := by
  induction p generalizing l with
  | nil => simp
  | cons a p ih =>
      cases l with
      | nil => simp at h
      | cons b l =>
          rw [List.cons_append, List.isPrefixOf_cons₂] at h
          rw [List.isPrefixOf_cons₂]
          simp only [Bool.and_eq_true] at h ⊢
          exact ⟨h.1, ih l h.2⟩

theorem cleanGemini_wrapJson (t : List Char) :
    cleanGeminiText (wrapJsonFence t) = pyStrip t := by
  unfold cleanGeminiText
  rw [pyStrip_wrapJson]
  have hs : pyStartsWith fenceJson (wrapJsonFence t) = true := rfl
  have he : pyEndsWith fence3 (wrapJsonFence t) = true :=
    endsWith3_concat (fenceJson ++ '\n' :: t)
  rw [hs, he]
  have hd : (wrapJsonFence t).drop 7 = ('\n' :: t) ++ '\n' :: fence3 := rfl
  simp only [Bool.and_self, if_true, hd, pyDropR3_sandwich]
  exact pyStrip_sandwich t

theorem cleanGemini_wrapBare (t : List Char) :
    cleanGeminiText (wrapBareFence t) = pyStrip t := by
  unfold cleanGeminiText
  rw [pyStrip_wrapBare]
  have hs1 : pyStartsWith fenceJson (wrapBareFence t) = false := rfl
  have hs3 : pyStartsWith fence3 (wrapBareFence t) = true := rfl
  have he : pyEndsWith fence3 (wrapBareFence t) = true :=
    endsWith3_concat (fence3 ++ '\n' :: t)
  rw [hs1, hs3, he]
  have hd : (wrapBareFence t).drop 3 = ('\n' :: t) ++ '\n' :: fence3 := rfl
  simp only [Bool.false_and, Bool.and_self, if_true, Bool.false_eq_true,
    if_false, hd, pyDropR3_sandwich]
  exact pyStrip_sandwich t

theorem cleanGemini_unfenced (t : List Char)
    (h : pyStartsWith fence3 (pyStrip t) = false) :
    cleanGeminiText t = pyStrip t := by
  have hj : pyStartsWith fenceJson (pyStrip t) = false := by
    rcases hb : pyStartsWith fenceJson (pyStrip t) with _ | _
    · rfl
    · have : pyStartsWith fence3 (pyStrip t) = true := by
        have := isPrefixOf_append_left fence3 ['j', 's', 'o', 'n'] (pyStrip t)
        exact this hb
      rw [this] at h
      exact absurd h (by simp)
  unfold cleanGeminiText
  rw [hj, h]
  simp

/-- **C5, amended.** If the generative-text output `t` does not itself look
fenced (its stripped form does not start with three backquotes), then the
fence-stripping step maps `t` wrapped in a ```` ```json … ``` ```` fence, or
in a bare ```` ``` … ``` ```` fence, and `t` unwrapped, to the identical
cleaned text; consequently, whenever that cleaned text parses as JSON, all
three inputs yield exactly the same parsed analysis.  (The original claim
fails when parsing fails: the fallback carries the original wrapped text in
`raw_response`, which differs between wrapped and unwrapped inputs — see the
counterexample.) -/
theorem C5_fence_wrapped_parses_identically (t : List Char)
    (h : pyStartsWith fence3 (pyStrip t) = false) :
    cleanGeminiText (wrapJsonFence t) = pyStrip t ∧
    cleanGeminiText (wrapBareFence t) = pyStrip t ∧
    cleanGeminiText t = pyStrip t ∧
    ∀ j, jsonLoads (pyStrip t) = some j →
      filter_vulnerability_results (wrapJsonFence t) = .parsed j ∧
      filter_vulnerability_results (wrapBareFence t) = .parsed j ∧
      filter_vulnerability_results t = .parsed j := by
  refine ⟨cleanGemini_wrapJson t, cleanGemini_wrapBare t,
    cleanGemini_unfenced t h, ?_⟩
  intro j hj
  unfold filter_vulnerability_results
  rw [cleanGemini_wrapJson t, cleanGemini_wrapBare t, cleanGemini_unfenced t h,
    hj]
  exact ⟨rfl, rfl, rfl⟩

theorem C5_fence_wrapped_parses_identically_witness :
    pyStartsWith fence3 (pyStrip "[1]".toList) = false ∧
      filter_vulnerability_results (wrapJsonFence "[1]".toList)
        = .parsed (Json.jarr [Json.jnum ['1']]) :=
  ⟨rfl, ((C5_fence_wrapped_parses_identically "[1]".toList rfl).2.2.2
    (Json.jarr [Json.jnum ['1']]) rfl).1⟩

/-- **C5, counterexample.** For the generative-text output `t = "hello"`
(which `json.loads` rejects), filtering the ```` ```json ```` -fenced form
of `t` does not yield the same analysis as filtering `t` unwrapped: both
fall back to the parse-failure dictionary, whose `raw_response` carries the
original — fenced vs. unfenced — text, so the results differ.  This refutes
the claim's universal "for every generative-text output t". -/
theorem C5_fence_stripping_counterexample :
    filter_vulnerability_results (wrapJsonFence "hello".toList)
      ≠ filter_vulnerability_results "hello".toList := by
  intro he
  have h1 : filter_vulnerability_results (wrapJsonFence "hello".toList)
      = GeminiOutcome.parseFailure (wrapJsonFence "hello".toList) := rfl
  have h2 : filter_vulnerability_results "hello".toList
      = GeminiOutcome.parseFailure "hello".toList := rfl
  rw [h1, h2] at he
  injection he with h3
  exact absurd h3 (by decide)

/-! ## Worker persistence (`run_web_ai_scan`, `app/core/tasks.py` lines 15–117)

The worker receives the scanner's result dictionary (modelled as
`ScanResult`; the scanner itself may raise, modelled as `Except`), then
issues a sequence of Supabase REST calls.  Each call may raise
(network/HTTP error); this is modelled by a failure oracle `fail : Nat →
Bool` indexed by the position of the attempted call in the run.  A raised
call leaves its table unchanged; the first raise aborts the `try` block and
runs the `except` handler, which patches the scan to `failed` (that patch
itself may raise, in which case the exception propagates out of the task).
The trace of *successful* calls is recorded as a list of `Op`. -/

/-- A value found under `confidence_score`: either one that Python's
`float()` converts (a number, a numeric string, a bool), or one it raises
on (a non-numeric string, `None`, …) with `str(e)` being `msg`. -/
inductive ConfVal where
  | validNum (q : ℚ) : ConfVal
  | invalid (msg : String) : ConfVal
  deriving DecidableEq

/-- Python `float(v)` on a present value. -/
def pyFloat : ConfVal → Except String ℚ
  | .validNum q => .ok q
  | .invalid m => .error m

/-- `float(scan_result.get("confidence_score", 0.0))` (`tasks.py` line 90):
an absent key is defaulted to `0.0`; a present value goes through
`float()`, which may raise. -/
def rowConf : Option ConfVal → Except String ℚ
  | none => .ok 0
  | some v => pyFloat v

/-- One candidate vulnerability dictionary from the analysis.  `none`
models an absent key (for `severity` and `cve_id`, a present falsy value
behaves like an absent one through the `or`/truthiness used in the code,
and `some ""` is kept to model it). -/
structure Vuln where
  cve_id : Option String := none
  name : Option String := none
  description : Option String := none
  severity : Option String := none
  cvss_score : Option ℚ := none
  remediation : Option String := none
  affected_software : Option String := none
  reference_links : Option (List String) := none
  details : Option String := none
  deriving DecidableEq

/-- The scanner's result dictionary (fields `run_web_ai_scan` reads). -/
structure ScanResult where
  ai_summary : Option String := none
  summary : Option String := none
  ai_recommendations : Option String := none
  confidence_score : Option ConfVal := none
  vulnerabilities : List Vuln := []
  deriving DecidableEq

/-- The device payload fields the worker reads. -/
structure Device where
  user_id : Option String := none
  name : Option String := none
  hostname : Option String := none
  deriving DecidableEq

/-- Python truthiness filter on an optional string (`x or d` and `if x:`
treat `None` and `""` alike). -/
def pyTruthy : Option String → Option String
  | none => none
  | some s => if s = "" then none else some s

/-- Python `x or d` for an optional string `x`. -/
def pyOrStr (o : Option String) (d : String) : String :=
  match pyTruthy o with
  | none => d
  | some s => s

/-- Severity normalization (`tasks.py` lines 54–56):
`severity = vuln.get("severity") or "Informational"`, then lowercased
membership test against `["unknown", "uknown", "", None]` (the `None`
member can never match a string). -/
def normSeverity (sev : Option String) : String :=
  if pyLower (pyOrStr sev "Informational") = "unknown"
      ∨ pyLower (pyOrStr sev "Informational") = "uknown"
      ∨ pyLower (pyOrStr sev "Informational") = "" then
    "Informational"
  else pyOrStr sev "Informational"

/-- Fields of a PATCH on the `scans` table; `none` = key not in the
payload. -/
structure PatchFields where
  status : Option String := none
  completed_at : Option String := none
  summary : Option String := none
  ai_recommendations : Option String := none
  ai_confidence_score : Option ℚ := none
  vulnerabilities_found : Option Nat := none
  deriving DecidableEq

/-- The `update_fields` payload (`tasks.py` lines 33–46): status
`completed`, completion timestamp, AI summary/recommendations, the
confidence score only when present and `float()`-convertible, and
`vulnerabilities_found = len(vulns)`. -/
def completedFields (now : String) (r : ScanResult) : PatchFields :=
  { status := some "completed"
    completed_at := some now
    summary := some (r.ai_summary.getD (r.summary.getD ""))
    ai_recommendations := some (r.ai_recommendations.getD "")
    ai_confidence_score :=
      match r.confidence_score with
      | none => none
      | some v =>
          match pyFloat v with
          | .ok q => some q
          | .error _ => none
    vulnerabilities_found := some r.vulnerabilities.length }

/-- The `except` handler's payload (`tasks.py` lines 114–116). -/
def failPatchFields (e : String) : PatchFields :=
  { status := some "failed", summary := some e }

/-- One row of the `vulnerabilities` catalog table. -/
structure VulnEntry where
  id : String
  cve_id : Option String
  name : String
  description : String
  severity : String
  cvss_score : Option ℚ
  remediation : String
  affected_software : String
  reference_links : List String
  deriving DecidableEq

/-- The `vuln_payload` inserted for a new CVE (`tasks.py` lines 67–76),
with the id the backend generates for it. -/
def mkVulnEntry (id : String) (v : Vuln) : VulnEntry :=
  { id := id
    cve_id := pyTruthy v.cve_id
    name := v.name.getD (pyOrStr v.cve_id "Unnamed Vulnerability")
    description := v.description.getD "No description provided."
    severity := normSeverity v.severity
    cvss_score := v.cvss_score
    remediation := pyOrStr v.remediation "No remediation provided."
    affected_software := pyOrStr v.affected_software "Not specified."
    reference_links := v.reference_links.getD [] }

/-- One row of the `scan_results` table (`result_payload`, `tasks.py`
lines 83–93).  The code always puts the `ai_confidence_score` key in the
payload, hence the field is `some` of the coerced value. -/
structure ResultRow where
  scan_id : String
  vulnerability_id : Option String
  finding : String
  details : String
  severity : String
  status : String
  ai_confidence_score : Option ℚ
  ai_suggested_remediation : String
  created_at : String
  deriving DecidableEq

def mkResultRow (now scan_id : String) (vuln_id : Option String) (conf : ℚ)
    (v : Vuln) : ResultRow :=
  { scan_id := scan_id
    vulnerability_id := vuln_id
    finding := v.description.getD "No description provided."
    details := v.details.getD ""
    severity := normSeverity v.severity
    status := "open"
    ai_confidence_score := some conf
    ai_suggested_remediation := pyOrStr v.remediation "No remediation provided."
    created_at := now }

/-- One row of the `notifications` table (`notif_payload`, `tasks.py`
lines 98–106). -/
structure NotifRow where
  user_id : String
  ntype : String
  title : String
  message : String
  is_read : Bool
  link : String
  created_at : String
  deriving DecidableEq

def mkNotifRow (now scan_id : String) (device : Device) (uid : String)
    (found : Nat) : NotifRow :=
  { user_id := uid
    ntype := "scan_completed"
    title := "Escaneo completado para "
      ++ device.name.getD (device.hostname.getD "dispositivo")
    message := "El escaneo ha finalizado. Vulnerabilidades encontradas: "
      ++ toString found
    is_read := false
    link := "/scans/" ++ scan_id
    created_at := now }

/-- One row of the `scans` table, with the fields the worker touches. -/
structure ScanRecord where
  status : String
  completed_at : Option String := none
  summary : Option String := none
  ai_recommendations : Option String := none
  ai_confidence_score : Option ℚ := none
  vulnerabilities_found : Option Nat := none
  deriving DecidableEq

/-- Applying a PATCH payload to a row: only the keys present in the
payload are overwritten. -/
def applyFields (rec : ScanRecord) (f : PatchFields) : ScanRecord :=
  { status := f.status.getD rec.status
    completed_at := (f.completed_at.map some).getD rec.completed_at
    summary := (f.summary.map some).getD rec.summary
    ai_recommendations :=
      (f.ai_recommendations.map some).getD rec.ai_recommendations
    ai_confidence_score :=
      (f.ai_confidence_score.map some).getD rec.ai_confidence_score
    vulnerabilities_found :=
      (f.vulnerabilities_found.map some).getD rec.vulnerabilities_found }

/-- `supabase.patch("scans", {"id": id}, f)`: update every row matching
the id filter. -/
def patchScansTable (tbl : List (String × ScanRecord)) (id : String)
    (f : PatchFields) : List (String × ScanRecord) :=
  tbl.map fun p => if p.1 = id then (p.1, applyFields p.2 f) else p

/-- Status of the row with the given id, if present. -/
def tableStatus (tbl : List (String × ScanRecord)) (id : String) :
    Option String :=
  (tbl.find? (fun p => p.1 = id)).map (fun p => p.2.status)

/-- The Supabase state the worker touches. -/
structure St where
  scans : List (String × ScanRecord)
  vulns : List VulnEntry
  results : List ResultRow
  notifs : List NotifRow
  nextId : Nat
  deriving DecidableEq

/-- A successful Supabase call issued by the worker, in order. -/
inductive Op where
  | patchScans (id : String) (fields : PatchFields) : Op
  | getVulnerabilities (cve : String) : Op
  | postVulnerabilities (entry : VulnEntry) : Op
  | postScanResults (row : ResultRow) : Op
  | postNotifications (row : NotifRow) : Op
  deriving DecidableEq

/-- The statuses successfully written to the `scans` table, in order. -/
def statusWrites (ops : List Op) : List String :=
  ops.filterMap fun op =>
    match op with
    | .patchScans _ f => f.status
    | _ => none

/-- Value the worker's task call returns (or the exception that escapes
it, when the `except` handler's own patch raises). -/
inductive RunResult where
  | ok (scan_id : String) (vulnerabilities_found : Nat) : RunResult
  | failed (scan_id : String) (error : String) : RunResult
  | raisedOut (error : String) : RunResult
  deriving DecidableEq

/-- The id the persistence backend generates for the n-th inserted catalog
row. -/
def genId (n : Nat) : String := "v" ++ toString n

/-- Message standing for `str(e)` of a raised REST call. -/
def sbErrMsg : String := "supabase error"

/-- Output of one phase of the run: next call index, state, successful
ops, and the raised exception text, if any. -/
structure LoopOut where
  k : Nat
  st : St
  ops : List Op
  err : Option String
  deriving DecidableEq

/-- Result of the catalog lookup/insert for one candidate. -/
inductive CatRes where
  | raised (e : String) : CatRes
  | okId (vuln_id : Option String) : CatRes
  deriving DecidableEq

/-- Catalog handling for one candidate (`tasks.py` lines 50, 62–81): a
falsy `cve_id` skips the catalog entirely; otherwise GET by exact
`cve_id` match, insert the payload when nothing was found, and use the
existing row's id otherwise. -/
def catalogStep (fail : Nat → Bool) (k : Nat) (st : St) (v : Vuln) :
    Nat × St × List Op × CatRes :=
  match pyTruthy v.cve_id with
  | none => (k, st, [], .okId none)
  | some cve =>
      if fail k then (k + 1, st, [], .raised sbErrMsg)
      else
        match st.vulns.filter (fun e => e.cve_id = some cve) with
        | [] =>
            if fail (k + 1) then
              (k + 2, st, [Op.getVulnerabilities cve], .raised sbErrMsg)
            else
              (k + 2,
               { st with vulns := st.vulns ++ [mkVulnEntry (genId st.nextId) v],
                         nextId := st.nextId + 1 },
               [Op.getVulnerabilities cve,
                Op.postVulnerabilities (mkVulnEntry (genId st.nextId) v)],
               .okId (some (genId st.nextId)))
        | e :: _ => (k + 1, st, [Op.getVulnerabilities cve], .okId (some e.id))

/-- Processing of one candidate vulnerability: catalog step, coercion of
the job-level confidence (`float(...get("confidence_score", 0.0))`,
which raises on a non-convertible present value), and the
`scan_results` insert. -/
def vulnStep (fail : Nat → Bool) (now scan_id : String)
    (conf : Option ConfVal) (k : Nat) (st : St) (v : Vuln) : LoopOut :=
  match catalogStep fail k st v with
  | (k1, st1, ops1, .raised e) => ⟨k1, st1, ops1, some e⟩
  | (k1, st1, ops1, .okId vuln_id) =>
      match rowConf conf with
      | .error e => ⟨k1, st1, ops1, some e⟩
      | .ok q =>
          if fail k1 then ⟨k1 + 1, st1, ops1, some sbErrMsg⟩
          else
            ⟨k1 + 1,
             { st1 with results :=
                st1.results ++ [mkResultRow now scan_id vuln_id q v] },
             ops1 ++ [Op.postScanResults (mkResultRow now scan_id vuln_id q v)],
             none⟩

/-- The `for vuln in scan_result.get("vulnerabilities", [])` loop
(`tasks.py` lines 49–94); the first raise aborts the remaining
iterations. -/
def vulnLoop (fail : Nat → Bool) (now scan_id : String)
    (conf : Option ConfVal) : Nat → St → List Vuln → LoopOut
  | k, st, [] => ⟨k, st, [], none⟩
  | k, st, v :: rest =>
      match vulnStep fail now scan_id conf k st v with
      | ⟨k1, st1, ops1, some e⟩ => ⟨k1, st1, ops1, some e⟩
      | ⟨k1, st1, ops1, none⟩ =>
          match vulnLoop fail now scan_id conf k1 st1 rest with
          | ⟨k2, st2, ops2, res⟩ => ⟨k2, st2, ops1 ++ ops2, res⟩

/-- The notification step (`tasks.py` lines 96–107): only when the device
has a truthy owner. -/
def notifStep (fail : Nat → Bool) (now scan_id : String) (device : Device)
    (r : ScanResult) (k : Nat) (st : St) : LoopOut :=
  match pyTruthy device.user_id with
  | none => ⟨k, st, [], none⟩
  | some uid =>
      if fail k then ⟨k + 1, st, [], some sbErrMsg⟩
      else
        ⟨k + 1,
         { st with notifs := st.notifs
            ++ [mkNotifRow now scan_id device uid r.vulnerabilities.length] },
         [Op.postNotifications
            (mkNotifRow now scan_id device uid r.vulnerabilities.length)],
         none⟩

/-- Output of a whole run. -/
structure RunOut where
  st : St
  ops : List Op
  res : RunResult
  deriving DecidableEq

/-- The `except` handler (`tasks.py` lines 113–117): patch the scan to
`failed` with `str(e)` as summary; should that patch itself raise, the
exception escapes the task. -/
def exceptHandler (fail : Nat → Bool) (scan_id : String) (e : String)
    (k : Nat) (st : St) : RunOut :=
  if fail k then ⟨st, [], .raisedOut sbErrMsg⟩
  else
    ⟨{ st with scans := patchScansTable st.scans scan_id (failPatchFields e) },
     [Op.patchScans scan_id (failPatchFields e)],
     .failed scan_id e⟩

/-- `run_web_ai_scan` (`tasks.py` lines 15–117): run the scanner, patch
the scan to `completed` (the first REST call of the run, before any
finding is written), loop over the candidates, notify the owner; any
raise inside the `try` falls to the handler. -/
def run_web_ai_scan (fail : Nat → Bool) (now scan_id : String)
    (device : Device) (scanOutcome : Except String ScanResult) (st : St) :
    RunOut :=
  match scanOutcome with
  | .error e => exceptHandler fail scan_id e 0 st
  | .ok r =>
      if fail 0 then exceptHandler fail scan_id sbErrMsg 1 st
      else
        match vulnLoop fail now scan_id r.confidence_score 1
            { st with scans :=
                patchScansTable st.scans scan_id (completedFields now r) }
            r.vulnerabilities with
        | ⟨k2, st2, ops2, some e⟩ =>
            match exceptHandler fail scan_id e k2 st2 with
            | ⟨st3, ops3, res⟩ =>
                ⟨st3,
                 Op.patchScans scan_id (completedFields now r) :: (ops2 ++ ops3),
                 res⟩
        | ⟨k2, st2, ops2, none⟩ =>
            match notifStep fail now scan_id device r k2 st2 with
            | ⟨k3, st3, ops3, some e⟩ =>
                match exceptHandler fail scan_id e k3 st3 with
                | ⟨st4, ops4, res⟩ =>
                    ⟨st4,
                     Op.patchScans scan_id (completedFields now r)
                       :: (ops2 ++ ops3 ++ ops4),
                     res⟩
            | ⟨_, st3, ops3, none⟩ =>
                ⟨st3,
                 Op.patchScans scan_id (completedFields now r) :: (ops2 ++ ops3),
                 .ok scan_id r.vulnerabilities.length⟩

theorem statusWrites_append (a b : List Op) :
    statusWrites (a ++ b) = statusWrites a ++ statusWrites b := by
  simp [statusWrites, List.filterMap_append]

theorem statusWrites_catalogStep (fail : Nat → Bool) (k : Nat) (st : St)
    (v : Vuln) : statusWrites (catalogStep fail k st v).2.2.1 = [] := by
  unfold catalogStep
  split <;> (try split) <;> (try split) <;> (try split) <;>
    simp [statusWrites]

theorem catalogStep_scans (fail : Nat → Bool) (k : Nat) (st : St) (v : Vuln) :
    (catalogStep fail k st v).2.1.scans = st.scans := by
  unfold catalogStep
  split <;> (try split) <;> (try split) <;> (try split) <;> rfl

theorem catalogStep_results (fail : Nat → Bool) (k : Nat) (st : St)
    (v : Vuln) : (catalogStep fail k st v).2.1.results = st.results := by
  unfold catalogStep
  split <;> (try split) <;> (try split) <;> (try split) <;> rfl

theorem statusWrites_vulnStep (fail : Nat → Bool) (now scan_id : String)
    (conf : Option ConfVal) (k : Nat) (st : St) (v : Vuln) :
    statusWrites (vulnStep fail now scan_id conf k st v).ops = [] := by
  unfold vulnStep
  rcases h : catalogStep fail k st v with ⟨k1, st1, ops1, cr⟩
  have hops : statusWrites ops1 = [] := by
    have := statusWrites_catalogStep fail k st v
    rw [h] at this
    exact this
  cases cr with
  | raised e => simpa using hops
  | okId vid =>
      cases hc : rowConf conf with
      | error e => simpa using hops
      | ok q =>
          by_cases hf : fail k1 <;>
            simp [hf, statusWrites_append, hops,
              show ∀ row, statusWrites [Op.postScanResults row] = []
                from fun _ => rfl]

theorem vulnStep_scans (fail : Nat → Bool) (now scan_id : String)
    (conf : Option ConfVal) (k : Nat) (st : St) (v : Vuln) :
    (vulnStep fail now scan_id conf k st v).st.scans = st.scans := by
  unfold vulnStep
  rcases h : catalogStep fail k st v with ⟨k1, st1, ops1, cr⟩
  have hsc : st1.scans = st.scans := by
    have := catalogStep_scans fail k st v
    rw [h] at this
    exact this
  cases cr with
  | raised e => simpa using hsc
  | okId vid =>
      cases hc : rowConf conf with
      | error e => simpa using hsc
      | ok q => by_cases hf : fail k1 <;> simp [hf, hsc]

theorem statusWrites_vulnLoop (fail : Nat → Bool) (now scan_id : String)
    (conf : Option ConfVal) (vs : List Vuln) :
    ∀ (k : Nat) (st : St),
      statusWrites (vulnLoop fail now scan_id conf k st vs).ops = [] := by
  induction vs with
  | nil => intro k st; simp [vulnLoop, statusWrites]
  | cons v rest ih =>
      intro k st
      unfold vulnLoop
      rcases h : vulnStep fail now scan_id conf k st v with ⟨k1, st1, ops1, err⟩
      have hops : statusWrites ops1 = [] := by
        have := statusWrites_vulnStep fail now scan_id conf k st v
        rw [h] at this
        exact this
      cases err with
      | some e => simpa using hops
      | none =>
          rcases hL : vulnLoop fail now scan_id conf k1 st1 rest
            with ⟨k2, st2, ops2, res⟩
          have hops2 : statusWrites ops2 = [] := by
            have := ih k1 st1
            rw [hL] at this
            exact this
          simp [hL, statusWrites_append, hops, hops2]

theorem vulnLoop_scans (fail : Nat → Bool) (now scan_id : String)
    (conf : Option ConfVal) (vs : List Vuln) :
    ∀ (k : Nat) (st : St),
      (vulnLoop fail now scan_id conf k st vs).st.scans = st.scans := by
  induction vs with
  | nil => intro k st; simp [vulnLoop]
  | cons v rest ih =>
      intro k st
      unfold vulnLoop
      rcases h : vulnStep fail now scan_id conf k st v with ⟨k1, st1, ops1, err⟩
      have hsc : st1.scans = st.scans := by
        have := vulnStep_scans fail now scan_id conf k st v
        rw [h] at this
        exact this
      cases err with
      | some e => simpa using hsc
      | none =>
          rcases hL : vulnLoop fail now scan_id conf k1 st1 rest
            with ⟨k2, st2, ops2, res⟩
          have h2 : st2.scans = st1.scans := by
            have := ih k1 st1
            rw [hL] at this
            exact this
          simp [hL]
          rw [h2, hsc]

theorem statusWrites_notifStep (fail : Nat → Bool) (now scan_id : String)
    (device : Device) (r : ScanResult) (k : Nat) (st : St) :
    statusWrites (notifStep fail now scan_id device r k st).ops = [] := by
  unfold notifStep
  split <;> (try split) <;> simp [statusWrites]

theorem notifStep_scans (fail : Nat → Bool) (now scan_id : String)
    (device : Device) (r : ScanResult) (k : Nat) (st : St) :
    (notifStep fail now scan_id device r k st).st.scans = st.scans := by
  unfold notifStep
  split <;> (try split) <;> rfl

theorem notifStep_vulns (fail : Nat → Bool) (now scan_id : String)
    (device : Device) (r : ScanResult) (k : Nat) (st : St) :
    (notifStep fail now scan_id device r k st).st.vulns = st.vulns := by
  unfold notifStep
  split <;> (try split) <;> rfl

theorem notifStep_results (fail : Nat → Bool) (now scan_id : String)
    (device : Device) (r : ScanResult) (k : Nat) (st : St) :
    (notifStep fail now scan_id device r k st).st.results = st.results := by
  unfold notifStep
  split <;> (try split) <;> rfl

theorem tableStatus_patch (tbl : List (String × ScanRecord)) (id : String)
    (f : PatchFields) (s : String) (hf : f.status = some s) :
    tableStatus (patchScansTable tbl id f) id
      = (tableStatus tbl id).map (fun _ => s) := by
  induction tbl with
  | nil => rfl
  | cons p tbl ih =>
      by_cases h : p.1 = id
      · simp [patchScansTable, tableStatus, List.find?_cons, h, applyFields, hf]
      · simp only [patchScansTable, List.map_cons, if_neg h]
        unfold tableStatus
        rw [List.find?_cons_of_neg _ (by simpa using h),
          List.find?_cons_of_neg _ (by simpa using h)]
        exact ih

theorem exceptHandler_results (fail : Nat → Bool) (scan_id e : String)
    (k : Nat) (st : St) :
    (exceptHandler fail scan_id e k st).st.results = st.results := by
  unfold exceptHandler
  split <;> rfl

theorem exceptHandler_vulns (fail : Nat → Bool) (scan_id e : String)
    (k : Nat) (st : St) :
    (exceptHandler fail scan_id e k st).st.vulns = st.vulns := by
  unfold exceptHandler
  split <;> rfl

/-- A present-but-`float()`-rejected confidence value. -/
def goodConf : Option ConfVal → Bool
  | some (.invalid _) => false
  | _ => true

theorem rowConf_ok_of_goodConf (conf : Option ConfVal)
    (hc : goodConf conf = true) : ∃ q, rowConf conf = .ok q := by
  cases conf with
  | none => exact ⟨0, rfl⟩
  | some v =>
      cases v with
      | validNum q => exact ⟨q, rfl⟩
      | invalid m => simp [goodConf] at hc

theorem catalogStep_raised_fail (fail : Nat → Bool) (k : Nat) (st : St)
    (v : Vuln) (e : String)
    (h : (catalogStep fail k st v).2.2.2 = .raised e) :
    fail k = true ∨ fail (k + 1) = true := by
  unfold catalogStep at h
  rcases hcv : pyTruthy v.cve_id with _ | cve
  · rw [hcv] at h
    simp at h
  · rw [hcv] at h
    by_cases hk : fail k
    · exact Or.inl hk
    · simp only [hk, Bool.false_eq_true, if_false] at h
      rcases hfl : st.vulns.filter (fun e => e.cve_id = some cve)
        with _ | ⟨e0, rest⟩
      · rw [hfl] at h
        by_cases hk1 : fail (k + 1)
        · exact Or.inr hk1
        · simp [hk1] at h
      · rw [hfl] at h
        simp at h

theorem vulnStep_err_none (fail : Nat → Bool) (now scan_id : String)
    (conf : Option ConfVal) (k : Nat) (st : St) (v : Vuln)
    (hf : ∀ n, fail n = false) (hc : goodConf conf = true) :
    (vulnStep fail now scan_id conf k st v).err = none := by
  unfold vulnStep
  rcases h : catalogStep fail k st v with ⟨k1, st1, ops1, cr⟩
  cases cr with
  | raised e =>
      have := catalogStep_raised_fail fail k st v e (by rw [h])
      rcases this with h1 | h1 <;> simp [hf] at h1
  | okId vid =>
      obtain ⟨q, hq⟩ := rowConf_ok_of_goodConf conf hc
      rw [hq]
      simp [hf k1]

theorem vulnLoop_err_none (fail : Nat → Bool) (now scan_id : String)
    (conf : Option ConfVal) (vs : List Vuln)
    (hf : ∀ n, fail n = false) (hc : goodConf conf = true) :
    ∀ (k : Nat) (st : St),
      (vulnLoop fail now scan_id conf k st vs).err = none := by
  induction vs with
  | nil => intro k st; rfl
  | cons v rest ih =>
      intro k st
      unfold vulnLoop
      rcases h : vulnStep fail now scan_id conf k st v with ⟨k1, st1, ops1, err⟩
      have herr : err = none := by
        have := vulnStep_err_none fail now scan_id conf k st v hf hc
        rw [h] at this
        exact this
      subst herr
      rcases hL : vulnLoop fail now scan_id conf k1 st1 rest
        with ⟨k2, st2, ops2, res⟩
      have := ih k1 st1
      rw [hL] at this
      simpa [hL] using this

theorem notifStep_err_none (fail : Nat → Bool) (now scan_id : String)
    (device : Device) (r : ScanResult) (k : Nat) (st : St)
    (hf : ∀ n, fail n = false) :
    (notifStep fail now scan_id device r k st).err = none := by
  unfold notifStep
  split
  · rfl
  · simp [hf]

/-- In every run that writes the completed patch at all (the first REST
call succeeds), that patch is the very first successful operation of the
run — it precedes every finding write. -/
theorem run_ops_head (fail : Nat → Bool) (now scan_id : String)
    (device : Device) (r : ScanResult) (st : St) (h0 : fail 0 = false) :
    (run_web_ai_scan fail now scan_id device (Except.ok r) st).ops.head?
      = some (Op.patchScans scan_id (completedFields now r)) := by
  unfold run_web_ai_scan
  simp only [h0, Bool.false_eq_true, if_false]
  rcases hL : vulnLoop fail now scan_id r.confidence_score 1
      { st with scans :=
          patchScansTable st.scans scan_id (completedFields now r) }
      r.vulnerabilities with ⟨k2, st2, ops2, err⟩
  cases err with
  | some e =>
      rcases hE : exceptHandler fail scan_id e k2 st2 with ⟨st3, ops3, res⟩
      simp
  | none =>
      rcases hN : notifStep fail now scan_id device r k2 st2
        with ⟨k3, st3, ops3, err3⟩
      cases err3 with
      | some e =>
          rcases hE : exceptHandler fail scan_id e k3 st3 with ⟨st4, ops4, res⟩
          simp [hN]
      | none => simp [hN]

theorem sublist_completed_failed_nil :
    ([] : List String).Sublist ["completed", "failed"] :=
  List.nil_sublist _

theorem sublist_completed_failed_f :
    (["failed"] : List String).Sublist ["completed", "failed"] :=
  List.Sublist.cons _ (List.Sublist.refl _)

theorem sublist_completed_failed_c :
    (["completed"] : List String).Sublist ["completed", "failed"] :=
  List.Sublist.cons₂ _ (List.nil_sublist _)

theorem statusWrites_exceptHandler (fail : Nat → Bool) (scan_id e : String)
    (k : Nat) (st : St) :
    statusWrites (exceptHandler fail scan_id e k st).ops = []
      ∨ statusWrites (exceptHandler fail scan_id e k st).ops = ["failed"] := by
  unfold exceptHandler
  split
  · exact Or.inl rfl
  · exact Or.inr rfl

/-- **C1, amended.** For every scan job processed by the worker, the
status starts as in_progress (written by the trigger endpoint) and, within
one run, the statuses the worker successfully writes form a subsequence of
[completed, failed]: completed is written at most once, failed at most
once, and always in that order — the status never returns to in_progress
or from failed to completed; a run in which no REST call raises and the
job-level confidence is `float()`-convertible (or absent) writes the
status exactly once, to completed.  The original "changed exactly once,
terminal statuses never rewritten" fails: a persistence fault after the
completed patch makes the worker rewrite completed to failed (see the
counterexample). -/
theorem C1_scan_status_writes (fail : Nat → Bool) (now scan_id : String)
    (device : Device) (scanOutcome : Except String ScanResult) (st : St) :
    (statusWrites
        (run_web_ai_scan fail now scan_id device scanOutcome st).ops).Sublist
      ["completed", "failed"] ∧
    (∀ r, scanOutcome = Except.ok r → (∀ n, fail n = false) →
      goodConf r.confidence_score = true →
      statusWrites (run_web_ai_scan fail now scan_id device scanOutcome st).ops
        = ["completed"]) := by
  constructor
  · cases scanOutcome with
    | error e =>
        rcases statusWrites_exceptHandler fail scan_id e 0 st with h | h <;>
          · show (statusWrites (exceptHandler fail scan_id e 0 st).ops).Sublist _
            rw [h]
            first
              | exact sublist_completed_failed_nil
              | exact sublist_completed_failed_f
    | ok r =>
        by_cases h0 : fail 0
        · have hrun : run_web_ai_scan fail now scan_id device (Except.ok r) st
              = exceptHandler fail scan_id sbErrMsg 1 st := by
            unfold run_web_ai_scan
            simp [h0]
          rw [hrun]
          rcases statusWrites_exceptHandler fail scan_id sbErrMsg 1 st
            with h | h <;> rw [h]
          · exact sublist_completed_failed_nil
          · exact sublist_completed_failed_f
        · unfold run_web_ai_scan
          simp only [h0, Bool.false_eq_true, if_false]
          rcases hL : vulnLoop fail now scan_id r.confidence_score 1
              { st with scans :=
                  patchScansTable st.scans scan_id (completedFields now r) }
              r.vulnerabilities with ⟨k2, st2, ops2, err⟩
          have hops2 : statusWrites ops2 = [] := by
            have := statusWrites_vulnLoop fail now scan_id r.confidence_score
              r.vulnerabilities 1
              { st with scans :=
                  patchScansTable st.scans scan_id (completedFields now r) }
            rw [hL] at this
            exact this
          cases err with
          | some e =>
              rcases hE : exceptHandler fail scan_id e k2 st2
                with ⟨st3, ops3, res⟩
              have hops3 : statusWrites ops3 = []
                  ∨ statusWrites ops3 = ["failed"] := by
                have := statusWrites_exceptHandler fail scan_id e k2 st2
                rw [hE] at this
                exact this
              simp only [hE]
              rw [show statusWrites
                    (Op.patchScans scan_id (completedFields now r)
                      :: (ops2 ++ ops3))
                  = "completed" :: statusWrites (ops2 ++ ops3) from rfl,
                statusWrites_append, hops2, List.nil_append]
              rcases hops3 with h3 | h3 <;> rw [h3]
              exact sublist_completed_failed_c
          | none =>
              rcases hN : notifStep fail now scan_id device r k2 st2
                with ⟨k3, st3, ops3, err3⟩
              have hops3 : statusWrites ops3 = [] := by
                have := statusWrites_notifStep fail now scan_id device r k2 st2
                rw [hN] at this
                exact this
              cases err3 with
              | some e =>
                  rcases hE : exceptHandler fail scan_id e k3 st3
                    with ⟨st4, ops4, res⟩
                  have hops4 : statusWrites ops4 = []
                      ∨ statusWrites ops4 = ["failed"] := by
                    have := statusWrites_exceptHandler fail scan_id e k3 st3
                    rw [hE] at this
                    exact this
                  simp only [hN, hE]
                  rw [show statusWrites
                        (Op.patchScans scan_id (completedFields now r)
                          :: (ops2 ++ ops3 ++ ops4))
                      = "completed" :: statusWrites (ops2 ++ ops3 ++ ops4)
                        from rfl,
                    statusWrites_append, statusWrites_append, hops2, hops3,
                    List.nil_append, List.nil_append]
                  rcases hops4 with h4 | h4 <;> rw [h4]
                  exact sublist_completed_failed_c
              | none =>
                  simp only [hN]
                  rw [show statusWrites
                        (Op.patchScans scan_id (completedFields now r)
                          :: (ops2 ++ ops3))
                      = "completed" :: statusWrites (ops2 ++ ops3) from rfl,
                    statusWrites_append, hops2, hops3]
                  exact sublist_completed_failed_c
  · intro r hr hf hc
    subst hr
    have h0 : fail 0 = false := hf 0
    unfold run_web_ai_scan
    simp only [h0, Bool.false_eq_true, if_false]
    rcases hL : vulnLoop fail now scan_id r.confidence_score 1
        { st with scans :=
            patchScansTable st.scans scan_id (completedFields now r) }
        r.vulnerabilities with ⟨k2, st2, ops2, err⟩
    have herr : err = none := by
      have := vulnLoop_err_none fail now scan_id r.confidence_score
        r.vulnerabilities hf hc 1
        { st with scans :=
            patchScansTable st.scans scan_id (completedFields now r) }
      rw [hL] at this
      exact this
    subst herr
    have hops2 : statusWrites ops2 = [] := by
      have := statusWrites_vulnLoop fail now scan_id r.confidence_score
        r.vulnerabilities 1
        { st with scans :=
            patchScansTable st.scans scan_id (completedFields now r) }
      rw [hL] at this
      exact this
    rcases hN : notifStep fail now scan_id device r k2 st2
      with ⟨k3, st3, ops3, err3⟩
    have herr3 : err3 = none := by
      have := notifStep_err_none fail now scan_id device r k2 st2 hf
      rw [hN] at this
      exact this
    subst herr3
    have hops3 : statusWrites ops3 = [] := by
      have := statusWrites_notifStep fail now scan_id device r k2 st2
      rw [hN] at this
      exact this
    simp only [hN]
    rw [show statusWrites
          (Op.patchScans scan_id (completedFields now r) :: (ops2 ++ ops3))
        = "completed" :: statusWrites (ops2 ++ ops3) from rfl,
      statusWrites_append, hops2, hops3, List.nil_append]

/-- Failure oracle of a run in which no REST call raises. -/
def noFail : Nat → Bool := fun _ => false

/-- A store holding one scan job `s1` in status in_progress (as the trigger
endpoint creates it) and an empty catalog. -/
def cexSt : St :=
  { scans := [("s1", { status := "in_progress" })]
    vulns := []
    results := []
    notifs := []
    nextId := 0 }

/-- A scanner result whose job-level confidence `float()` rejects, with one
candidate vulnerability. -/
def cexScanBad : ScanResult :=
  { confidence_score := some (.invalid "bad float")
    vulnerabilities := [{}] }

/-- A scanner result with one candidate vulnerability and no confidence
key. -/
def cexScanPlain : ScanResult := { vulnerabilities := [{}] }

/-- **C1, counterexample.** A concrete fault-free-REST run (scanner result
with one candidate and a `float()`-rejected job-level confidence) writes
the status twice — completed, then failed — and the job ends failed after
having been completed, refuting "the status is changed exactly once and a
terminal status is never rewritten". -/
theorem C1_scan_status_writes_counterexample :
    statusWrites
        (run_web_ai_scan noFail "T" "s1" {} (Except.ok cexScanBad) cexSt).ops
      = ["completed", "failed"] ∧
    tableStatus
        (run_web_ai_scan noFail "T" "s1" {} (Except.ok cexScanBad) cexSt).st.scans
        "s1"
      = some "failed" := ⟨rfl, rfl⟩

theorem C1_scan_status_writes_witness :
    statusWrites
        (run_web_ai_scan noFail "T" "s1" {} (Except.ok cexScanPlain) cexSt).ops
      = ["completed"] :=
  (C1_scan_status_writes noFail "T" "s1" {} (Except.ok cexScanPlain) cexSt).2
    cexScanPlain rfl (fun _ => rfl) rfl

/-- **C2, amended.** In every run of the persistence step whose first REST
call succeeds, the patch that sets the scan job to completed — with
completion timestamp, summary, recommendations, confidence (omit-on-
invalid), and vulnerabilities_found equal to the number of candidate
vulnerabilities in the analysis (not the number of rows later written) —
executes BEFORE any finding row is written: it is the first successful
operation of the run.  Because it precedes the finding writes, it has
executed even in runs where finding writes later fail; in such runs the
handler overwrites the status to failed, so the job still ends in a
terminal state (completed or failed).  The original claim's "only after
all finding rows have been written" and "count of rows actually written"
fail — see the counterexample. -/
theorem C2_completed_patch_before_findings (fail : Nat → Bool)
    (now scan_id : String) (device : Device) (r : ScanResult) (st : St)
    (h0 : fail 0 = false)
    (hsome : (tableStatus st.scans scan_id).isSome = true) :
    (run_web_ai_scan fail now scan_id device (Except.ok r) st).ops.head?
      = some (Op.patchScans scan_id (completedFields now r)) ∧
    (completedFields now r).vulnerabilities_found
      = some r.vulnerabilities.length ∧
    (tableStatus
        (run_web_ai_scan fail now scan_id device (Except.ok r) st).st.scans
        scan_id = some "completed" ∨
      tableStatus
        (run_web_ai_scan fail now scan_id device (Except.ok r) st).st.scans
        scan_id = some "failed") := by
  refine ⟨run_ops_head fail now scan_id device r st h0, rfl, ?_⟩
  obtain ⟨s0, hs0⟩ := Option.isSome_iff_exists.mp hsome
  have hs1 : tableStatus
      (patchScansTable st.scans scan_id (completedFields now r)) scan_id
      = some "completed" := by
    rw [tableStatus_patch st.scans scan_id (completedFields now r)
      "completed" rfl, hs0]
    rfl
  unfold run_web_ai_scan
  simp only [h0, Bool.false_eq_true, if_false]
  rcases hL : vulnLoop fail now scan_id r.confidence_score 1
      { st with scans :=
          patchScansTable st.scans scan_id (completedFields now r) }
      r.vulnerabilities with ⟨k2, st2, ops2, err⟩
  have hsc2 : st2.scans
      = patchScansTable st.scans scan_id (completedFields now r) := by
    have := vulnLoop_scans fail now scan_id r.confidence_score
      r.vulnerabilities 1
      { st with scans :=
          patchScansTable st.scans scan_id (completedFields now r) }
    rw [hL] at this
    exact this
  have hst2 : tableStatus st2.scans scan_id = some "completed" := by
    rw [hsc2]; exact hs1
  cases err with
  | some e =>
      unfold exceptHandler
      by_cases hk : fail k2
      · simp only [hk, if_true]
        exact Or.inl hst2
      · simp only [hk, Bool.false_eq_true, if_false]
        refine Or.inr ?_
        rw [tableStatus_patch st2.scans scan_id (failPatchFields e)
          "failed" rfl, hst2]
        rfl
  | none =>
      rcases hN : notifStep fail now scan_id device r k2 st2
        with ⟨k3, st3, ops3, err3⟩
      have hst3 : tableStatus st3.scans scan_id = some "completed" := by
        have := notifStep_scans fail now scan_id device r k2 st2
        rw [hN] at this
        rw [this]
        exact hst2
      cases err3 with
      | some e =>
          simp only [hN]
          unfold exceptHandler
          by_cases hk : fail k3
          · simp only [hk, if_true]
            exact Or.inl hst3
          · simp only [hk, Bool.false_eq_true, if_false]
            refine Or.inr ?_
            rw [tableStatus_patch st3.scans scan_id (failPatchFields e)
              "failed" rfl, hst3]
            rfl
      | none =>
          simp only [hN]
          exact Or.inl hst3

/-- **C2, counterexample.** In a fully successful concrete run with one
candidate vulnerability, the completed patch is the FIRST Supabase call,
executed before the single finding row is written, and it already carries
vulnerabilities_found = 1 although zero rows have been written at that
point — refuting "executed only after all finding rows have been
written". -/
theorem C2_completed_patch_before_findings_counterexample :
    (run_web_ai_scan noFail "T" "s1" {} (Except.ok cexScanPlain) cexSt).ops
      = [Op.patchScans "s1" (completedFields "T" cexScanPlain),
         Op.postScanResults (mkResultRow "T" "s1" none 0 {})] ∧
    (completedFields "T" cexScanPlain).status = some "completed" ∧
    (completedFields "T" cexScanPlain).vulnerabilities_found = some 1 :=
  ⟨rfl, rfl, rfl⟩

theorem C2_completed_patch_before_findings_witness :
    (run_web_ai_scan noFail "T" "s1" {} (Except.ok cexScanPlain) cexSt).ops.head?
      = some (Op.patchScans "s1" (completedFields "T" cexScanPlain)) :=
  (C2_completed_patch_before_findings noFail "T" "s1" {} cexScanPlain cexSt
    rfl rfl).1

/-- Job-level test of `tasks.py` lines 39–44: the confidence key is absent,
or present but rejected by `float()`. -/
def confMissingOrInvalid : Option ConfVal → Bool
  | none => true
  | some (.invalid _) => true
  | some (.validNum _) => false

theorem vulnStep_results_zero (fail : Nat → Bool) (now scan_id : String)
    (k : Nat) (st : St) (v : Vuln) :
    ∀ row ∈ (vulnStep fail now scan_id none k st v).st.results,
      row ∈ st.results ∨ row.ai_confidence_score = some 0 := by
  unfold vulnStep
  rcases h : catalogStep fail k st v with ⟨k1, st1, ops1, cr⟩
  have hres : st1.results = st.results := by
    have := catalogStep_results fail k st v
    rw [h] at this
    exact this
  cases cr with
  | raised e =>
      intro row hr
      rw [hres] at hr
      exact Or.inl hr
  | okId vid =>
      simp only [rowConf]
      by_cases hf : fail k1
      · simp only [hf, if_true]
        intro row hr
        rw [hres] at hr
        exact Or.inl hr
      · simp only [hf, Bool.false_eq_true, if_false]
        intro row hr
        simp only [List.mem_append, List.mem_singleton] at hr
        rcases hr with hr | hr
        · rw [hres] at hr
          exact Or.inl hr
        · subst hr
          exact Or.inr rfl

theorem vulnLoop_results_zero (fail : Nat → Bool) (now scan_id : String)
    (vs : List Vuln) :
    ∀ (k : Nat) (st : St),
      ∀ row ∈ (vulnLoop fail now scan_id none k st vs).st.results,
        row ∈ st.results ∨ row.ai_confidence_score = some 0 := by
  induction vs with
  | nil => intro k st row hr; exact Or.inl hr
  | cons v rest ih =>
      intro k st
      unfold vulnLoop
      rcases h : vulnStep fail now scan_id none k st v with ⟨k1, st1, ops1, err⟩
      have hstep : ∀ row ∈ st1.results,
          row ∈ st.results ∨ row.ai_confidence_score = some 0 := by
        have := vulnStep_results_zero fail now scan_id k st v
        rw [h] at this
        exact this
      cases err with
      | some e => exact hstep
      | none =>
          rcases hL : vulnLoop fail now scan_id none k1 st1 rest
            with ⟨k2, st2, ops2, res⟩
          simp only [hL]
          intro row hr
          have hrec : row ∈ st1.results ∨ row.ai_confidence_score = some 0 := by
            have := ih k1 st1 row
            rw [hL] at this
            exact this hr
          rcases hrec with hrec | hrec
          · exact hstep row hrec
          · exact Or.inr hrec

theorem vulnStep_invalid_err (fail : Nat → Bool) (now scan_id m : String)
    (k : Nat) (st : St) (v : Vuln) (hf : ∀ n, fail n = false) :
    (vulnStep fail now scan_id (some (.invalid m)) k st v).err = some m := by
  unfold vulnStep
  rcases h : catalogStep fail k st v with ⟨k1, st1, ops1, cr⟩
  cases cr with
  | raised e =>
      have := catalogStep_raised_fail fail k st v e (by rw [h])
      rcases this with h1 | h1 <;> simp [hf] at h1
  | okId vid => rfl

/-- **C3, amended.** For the scan-job patch, an absent or
non-`float()`-convertible confidence score is omitted entirely — the key is
not in the payload, nothing is coerced to zero, no error is raised, and the
patch still executes as the first operation of the run.  The same rule does
NOT extend to the per-finding rows: there the code computes
`float(scan_result.get("confidence_score", 0.0))`, so an absent score is
written as 0.0 on every finding row (not omitted — see the counterexample),
and a present non-convertible score raises, failing the whole job. -/
theorem C3_confidence_omitted (fail : Nat → Bool) (now scan_id : String)
    (device : Device) (r : ScanResult) (st : St) (m : String) :
    (confMissingOrInvalid r.confidence_score = true →
      (completedFields now r).ai_confidence_score = none) ∧
    (fail 0 = false →
      (run_web_ai_scan fail now scan_id device (Except.ok r) st).ops.head?
        = some (Op.patchScans scan_id (completedFields now r))) ∧
    (r.confidence_score = none → (∀ n, fail n = false) →
      ∀ row ∈
        (run_web_ai_scan fail now scan_id device (Except.ok r) st).st.results,
        row ∈ st.results ∨ row.ai_confidence_score = some 0) ∧
    (r.confidence_score = some (.invalid m) → (∀ n, fail n = false) →
      r.vulnerabilities ≠ [] →
      (run_web_ai_scan fail now scan_id device (Except.ok r) st).res
        = .failed scan_id m) := by
  refine ⟨?_, fun h0 => run_ops_head fail now scan_id device r st h0, ?_, ?_⟩
  · intro h
    unfold completedFields
    rcases hc : r.confidence_score with _ | v
    · rfl
    · cases v with
      | validNum q => rw [hc] at h; simp [confMissingOrInvalid] at h
      | invalid msg => simp [pyFloat]
  · intro hc hf
    have h0 : fail 0 = false := hf 0
    unfold run_web_ai_scan
    simp only [h0, Bool.false_eq_true, if_false]
    rcases hL : vulnLoop fail now scan_id r.confidence_score 1
        { st with scans :=
            patchScansTable st.scans scan_id (completedFields now r) }
        r.vulnerabilities with ⟨k2, st2, ops2, err⟩
    have herr : err = none := by
      have := vulnLoop_err_none fail now scan_id r.confidence_score
        r.vulnerabilities hf (by rw [hc]; rfl) 1
        { st with scans :=
            patchScansTable st.scans scan_id (completedFields now r) }
      rw [hL] at this
      exact this
    subst herr
    have hrows : ∀ row ∈ st2.results,
        row ∈ st.results ∨ row.ai_confidence_score = some 0 := by
      have := vulnLoop_results_zero fail now scan_id r.vulnerabilities 1
        { st with scans :=
            patchScansTable st.scans scan_id (completedFields now r) }
      rw [hc] at hL
      rw [hL] at this
      exact this
    rcases hN : notifStep fail now scan_id device r k2 st2
      with ⟨k3, st3, ops3, err3⟩
    have herr3 : err3 = none := by
      have := notifStep_err_none fail now scan_id device r k2 st2 hf
      rw [hN] at this
      exact this
    subst herr3
    simp only [hN]
    have hres3 : st3.results = st2.results := by
      have := notifStep_results fail now scan_id device r k2 st2
      rw [hN] at this
      exact this
    rw [hres3]
    exact hrows
  · intro hc hf hne
    have h0 : fail 0 = false := hf 0
    rcases hvs : r.vulnerabilities with _ | ⟨v, rest⟩
    · exact absurd hvs hne
    · unfold run_web_ai_scan
      simp only [h0, Bool.false_eq_true, if_false]
      rw [hvs, hc]
      unfold vulnLoop
      rcases hS : vulnStep fail now scan_id (some (.invalid m)) 1
          { st with scans :=
              patchScansTable st.scans scan_id (completedFields now r) } v
        with ⟨k1, st1, ops1, err⟩
      have herr : err = some m := by
        have := vulnStep_invalid_err fail now scan_id m 1
          { st with scans :=
              patchScansTable st.scans scan_id (completedFields now r) } v hf
        rw [hS] at this
        exact this
      subst herr
      unfold exceptHandler
      simp [hf]

/-- **C3, counterexample.** In a concrete successful run whose scanner
result has NO confidence_score key, the single persisted finding row
carries ai_confidence_score = 0.0: the field is coerced to zero on the
finding row, not omitted, refuting "the same omit-on-invalid rule applies
to the confidence score written on each finding row". -/
theorem C3_confidence_omitted_counterexample :
    cexScanPlain.confidence_score = none ∧
    ((run_web_ai_scan noFail "T" "s1" {} (Except.ok cexScanPlain)
        cexSt).st.results.map (fun row => row.ai_confidence_score))
      = [some 0] := ⟨rfl, rfl⟩

theorem C3_confidence_omitted_witness :
    (completedFields "T" cexScanBad).ai_confidence_score = none ∧
    (run_web_ai_scan noFail "T" "s1" {} (Except.ok cexScanBad) cexSt).res
      = .failed "s1" "bad float" :=
  ⟨(C3_confidence_omitted noFail "T" "s1" {} cexScanBad cexSt "bad float").1
      rfl,
    (C3_confidence_omitted noFail "T" "s1" {} cexScanBad cexSt
      "bad float").2.2.2 rfl (fun _ => rfl) (by decide)⟩

/-- Number of catalog entries carrying the given CVE identifier. -/
def cveCount (c : String) (l : List VulnEntry) : Nat :=
  (l.filter (fun e => e.cve_id = some c)).length

theorem cveCount_append (c : String) (l₁ l₂ : List VulnEntry) :
    cveCount c (l₁ ++ l₂) = cveCount c l₁ + cveCount c l₂ := by
  simp [cveCount, List.filter_append]

theorem catalogStep_state_none (fail : Nat → Bool) (k : Nat) (st : St)
    (v : Vuln) (hcv : pyTruthy v.cve_id = none) :
    catalogStep fail k st v = (k, st, [], .okId none) := by
  unfold catalogStep
  rw [hcv]

theorem catalogStep_state_found (fail : Nat → Bool) (k : Nat) (st : St)
    (v : Vuln) (cve : String) (e0 : VulnEntry) (es : List VulnEntry)
    (hcv : pyTruthy v.cve_id = some cve) (hk : fail k = false)
    (hfl : st.vulns.filter (fun e => e.cve_id = some cve) = e0 :: es) :
    catalogStep fail k st v
      = (k + 1, st, [Op.getVulnerabilities cve], .okId (some e0.id)) := by
  unfold catalogStep
  rw [hcv]
  simp only [hk, Bool.false_eq_true, if_false]
  rw [hfl]

theorem catalogStep_state_insert (fail : Nat → Bool) (k : Nat) (st : St)
    (v : Vuln) (cve : String)
    (hcv : pyTruthy v.cve_id = some cve) (hk : fail k = false)
    (hk1 : fail (k + 1) = false)
    (hfl : st.vulns.filter (fun e => e.cve_id = some cve) = []) :
    catalogStep fail k st v
      = (k + 2,
         { st with vulns := st.vulns ++ [mkVulnEntry (genId st.nextId) v],
                   nextId := st.nextId + 1 },
         [Op.getVulnerabilities cve,
          Op.postVulnerabilities (mkVulnEntry (genId st.nextId) v)],
         .okId (some (genId st.nextId))) := by
  unfold catalogStep
  rw [hcv]
  simp only [hk, Bool.false_eq_true, if_false]
  rw [hfl]
  simp only [hk1, Bool.false_eq_true, if_false]

theorem catalogStep_cve_inv (fail : Nat → Bool) (k : Nat) (st : St)
    (v : Vuln) (c : String) (hf : ∀ n, fail n = false) :
    (∃ new, (catalogStep fail k st v).2.1.vulns = st.vulns ++ new) ∧
    (cveCount c st.vulns ≤ 1 →
      cveCount c (catalogStep fail k st v).2.1.vulns ≤ 1) ∧
    (cveCount c st.vulns = 1 →
      cveCount c (catalogStep fail k st v).2.1.vulns = 1) ∧
    (pyTruthy v.cve_id = some c → cveCount c st.vulns ≤ 1 →
      cveCount c (catalogStep fail k st v).2.1.vulns = 1) := by
  rcases hcv : pyTruthy v.cve_id with _ | cve
  · rw [catalogStep_state_none fail k st v hcv]
    exact ⟨⟨[], by simp⟩, fun h => h, fun h => h,
      fun hx _ => Option.noConfusion hx⟩
  · rcases hfl : st.vulns.filter (fun e => e.cve_id = some cve)
      with _ | ⟨e0, es⟩
    · rw [catalogStep_state_insert fail k st v cve hcv (hf k) (hf (k + 1)) hfl]
      have hecve : (mkVulnEntry (genId st.nextId) v).cve_id = some cve := hcv
      have happ : cveCount c
          (st.vulns ++ [mkVulnEntry (genId st.nextId) v])
          = cveCount c st.vulns + (if cve = c then 1 else 0) := by
        rw [cveCount_append]
        congr 1
        show (List.filter (fun e => e.cve_id = some c)
          [mkVulnEntry (genId st.nextId) v]).length = if cve = c then 1 else 0
        rw [List.filter_cons]
        by_cases hcc : cve = c
        · have hmem : (mkVulnEntry (genId st.nextId) v).cve_id = some c := by
            rw [hecve, hcc]
          simp [hmem, hcc]
        · have hmem : ¬((mkVulnEntry (genId st.nextId) v).cve_id = some c) := by
            rw [hecve]
            intro h
            exact hcc (Option.some.inj h)
          simp [hmem, hcc]
      by_cases hcc : cve = c
      · have h0 : cveCount c st.vulns = 0 := by
          unfold cveCount
          rw [← hcc, hfl]
          rfl
        refine ⟨⟨[mkVulnEntry (genId st.nextId) v], rfl⟩,
          fun _ => ?_, fun h1 => ?_, fun _ _ => ?_⟩
        · rw [happ, h0]
          simp [hcc]
        · rw [h0] at h1
          cases h1
        · rw [happ, h0]
          simp [hcc]
      · have heq : cveCount c
            (st.vulns ++ [mkVulnEntry (genId st.nextId) v])
            = cveCount c st.vulns := by
          rw [happ, if_neg hcc]
          omega
        refine ⟨⟨[mkVulnEntry (genId st.nextId) v], rfl⟩,
          fun h => ?_, fun h => ?_, fun hx _ => ?_⟩
        · rw [heq]; exact h
        · rw [heq]; exact h
        · exact absurd (Option.some.inj (hcv ▸ hx)) hcc
    · rw [catalogStep_state_found fail k st v cve e0 es hcv (hf k) hfl]
      refine ⟨⟨[], by simp⟩, fun h => h, fun h => h, fun hx hle => ?_⟩
      have hcc : cve = c := Option.some.inj (hcv ▸ hx)
      have hcnt : cveCount c st.vulns = es.length + 1 := by
        unfold cveCount
        rw [← hcc, hfl]
        rfl
      show cveCount c st.vulns = 1
      omega

theorem vulnStep_cve_inv (fail : Nat → Bool) (now scan_id : String)
    (conf : Option ConfVal) (k : Nat) (st : St) (v : Vuln) (c : String)
    (hf : ∀ n, fail n = false) :
    (∃ new, (vulnStep fail now scan_id conf k st v).st.vulns
        = st.vulns ++ new) ∧
    (cveCount c st.vulns ≤ 1 →
      cveCount c (vulnStep fail now scan_id conf k st v).st.vulns ≤ 1) ∧
    (cveCount c st.vulns = 1 →
      cveCount c (vulnStep fail now scan_id conf k st v).st.vulns = 1) ∧
    (pyTruthy v.cve_id = some c → cveCount c st.vulns ≤ 1 →
      cveCount c (vulnStep fail now scan_id conf k st v).st.vulns = 1) := by
  have hcat := catalogStep_cve_inv fail k st v c hf
  unfold vulnStep
  rcases h : catalogStep fail k st v with ⟨k1, st1, ops1, cr⟩
  rw [h] at hcat
  cases cr with
  | raised e => exact hcat
  | okId vid =>
      cases hq : rowConf conf with
      | error e => exact hcat
      | ok q =>
          simp only [hf k1, Bool.false_eq_true, if_false]
          exact hcat

theorem vulnLoop_cve_inv (fail : Nat → Bool) (now scan_id : String)
    (conf : Option ConfVal) (c : String) (vs : List Vuln)
    (hf : ∀ n, fail n = false) (hc : goodConf conf = true) :
    ∀ (k : Nat) (st : St),
      (∃ new, (vulnLoop fail now scan_id conf k st vs).st.vulns
          = st.vulns ++ new) ∧
      (cveCount c st.vulns ≤ 1 →
        cveCount c (vulnLoop fail now scan_id conf k st vs).st.vulns ≤ 1) ∧
      (cveCount c st.vulns = 1 →
        cveCount c (vulnLoop fail now scan_id conf k st vs).st.vulns = 1) ∧
      (cveCount c st.vulns ≤ 1 →
        (∃ v ∈ vs, pyTruthy v.cve_id = some c) →
        cveCount c (vulnLoop fail now scan_id conf k st vs).st.vulns = 1) := by
  induction vs with
  | nil =>
      intro k st
      refine ⟨⟨[], by simp [vulnLoop]⟩, fun h => h, fun h => h, ?_⟩
      rintro _ ⟨v, hv, _⟩
      cases hv
  | cons v rest ih =>
      intro k st
      unfold vulnLoop
      rcases h : vulnStep fail now scan_id conf k st v with ⟨k1, st1, ops1, err⟩
      have hstep := vulnStep_cve_inv fail now scan_id conf k st v c hf
      rw [h] at hstep
      have herr : err = none := by
        have := vulnStep_err_none fail now scan_id conf k st v hf hc
        rw [h] at this
        exact this
      subst herr
      rcases hL : vulnLoop fail now scan_id conf k1 st1 rest
        with ⟨k2, st2, ops2, res⟩
      have hrec := ih k1 st1
      rw [hL] at hrec
      simp only [hL]
      obtain ⟨⟨n1, hn1⟩, hs2, hs3, hs4⟩ := hstep
      obtain ⟨⟨n2, hn2⟩, hr2, hr3, hr4⟩ := hrec
      refine ⟨⟨n1 ++ n2, by rw [hn2, hn1, List.append_assoc]⟩,
        fun hle => hr2 (hs2 hle), fun h1 => hr3 (hs3 h1), ?_⟩
      rintro hle ⟨v', hv', hcve⟩
      rcases List.mem_cons.mp hv' with hv' | hv'
      · subst hv'
        exact hr3 (hs4 hcve hle)
      · exact hr4 (hs2 hle) ⟨v', hv', hcve⟩

/-- **C7.** In every fault-free run of the persistence step (no REST call
raises, job-level confidence `float()`-convertible or absent), and for
every CVE identifier `c` with at most one pre-existing catalog entry: the
catalog only grows by appended entries (no existing entry is overwritten),
at most one entry for `c` exists afterwards, and if some normalized
vulnerability of the run carries `c` — in particular when two or more do —
exactly one catalog entry for `c` exists afterwards: the first sighting
inserts it if absent (looked up by exact match), later sightings reuse the
existing entry's id. -/
theorem C7_catalog_dedup (fail : Nat → Bool) (now scan_id : String)
    (device : Device) (r : ScanResult) (st : St) (c : String)
    (hf : ∀ n, fail n = false) (hc : goodConf r.confidence_score = true)
    (hinit : cveCount c st.vulns ≤ 1) :
    (∃ new,
      (run_web_ai_scan fail now scan_id device (Except.ok r) st).st.vulns
        = st.vulns ++ new) ∧
    cveCount c
      (run_web_ai_scan fail now scan_id device (Except.ok r) st).st.vulns
      ≤ 1 ∧
    ((∃ v ∈ r.vulnerabilities, pyTruthy v.cve_id = some c) →
      cveCount c
        (run_web_ai_scan fail now scan_id device (Except.ok r) st).st.vulns
        = 1) := by
  have h0 : fail 0 = false := hf 0
  unfold run_web_ai_scan
  simp only [h0, Bool.false_eq_true, if_false]
  rcases hL : vulnLoop fail now scan_id r.confidence_score 1
      { st with scans :=
          patchScansTable st.scans scan_id (completedFields now r) }
      r.vulnerabilities with ⟨k2, st2, ops2, err⟩
  have herr : err = none := by
    have := vulnLoop_err_none fail now scan_id r.confidence_score
      r.vulnerabilities hf hc 1
      { st with scans :=
          patchScansTable st.scans scan_id (completedFields now r) }
    rw [hL] at this
    exact this
  subst herr
  have hinv := vulnLoop_cve_inv fail now scan_id r.confidence_score c
    r.vulnerabilities hf hc 1
    { st with scans :=
        patchScansTable st.scans scan_id (completedFields now r) }
  rw [hL] at hinv
  obtain ⟨⟨new, hnew⟩, h2, _h3, h4⟩ := hinv
  rcases hN : notifStep fail now scan_id device r k2 st2
    with ⟨k3, st3, ops3, err3⟩
  have herr3 : err3 = none := by
    have := notifStep_err_none fail now scan_id device r k2 st2 hf
    rw [hN] at this
    exact this
  subst herr3
  have hv3 : st3.vulns = st2.vulns := by
    have := notifStep_vulns fail now scan_id device r k2 st2
    rw [hN] at this
    exact this
  simp only [hN]
  exact ⟨⟨new, by rw [hv3]; exact hnew⟩,
    by rw [hv3]; exact h2 hinit,
    fun hex => by rw [hv3]; exact h4 hinit hex⟩

/-- A scanner result reporting the same CVE identifier twice. -/
def cexScanDup : ScanResult :=
  { vulnerabilities := [{ cve_id := some "CVE-1" }, { cve_id := some "CVE-1" }] }

theorem C7_catalog_dedup_witness :
    cveCount "CVE-1"
      (run_web_ai_scan noFail "T" "s1" {} (Except.ok cexScanDup) cexSt).st.vulns
      = 1 :=
  (C7_catalog_dedup noFail "T" "s1" {} cexScanDup cexSt "CVE-1"
      (fun _ => rfl) rfl (by decide)).2.2
    ⟨{ cve_id := some "CVE-1" }, List.mem_cons_self _ _, rfl⟩

/-- The severity values the claim is about: the empty string, null (or an
absent key), and case-insensitive "unknown"/"uknown". -/
def isUnknownish (sev : Option String) : Bool :=
  match sev with
  | none => true
  | some s => s = "" || pyLower s = "unknown" || pyLower s = "uknown"

theorem normSeverity_informational (sev : Option String)
    (h : isUnknownish sev = true) : normSeverity sev = "Informational" := by
  cases sev with
  | none => rfl
  | some s =>
      by_cases hs : s = ""
      · subst hs; rfl
      · have hors : pyOrStr (some s) "Informational" = s := by
          simp [pyOrStr, pyTruthy, hs]
        by_cases h2 : pyLower s = "unknown"
        · unfold normSeverity
          rw [hors, if_pos (Or.inl h2)]
        · by_cases h3 : pyLower s = "uknown"
          · unfold normSeverity
            rw [hors, if_pos (Or.inr (Or.inl h3))]
          · exfalso
            simp [isUnknownish, hs, h2, h3] at h

/-- **C8.** For every candidate vulnerability whose severity value is the
empty string, null/absent, or case-insensitively "unknown" or "uknown",
the severity stored on the persisted finding row and on any newly created
catalog entry is exactly "Informational". -/
theorem C8_severity_informational (v : Vuln) (id now scan_id : String)
    (vid : Option String) (q : ℚ) (h : isUnknownish v.severity = true) :
    (mkResultRow now scan_id vid q v).severity = "Informational" ∧
    (mkVulnEntry id v).severity = "Informational" :=
  ⟨normSeverity_informational v.severity h,
    normSeverity_informational v.severity h⟩

theorem C8_severity_informational_witness :
    isUnknownish (some "UNKNOWN") = true ∧
    (mkResultRow "T" "s1" none 0 { severity := some "UNKNOWN" }).severity
      = "Informational" :=
  ⟨by decide,
    (C8_severity_informational { severity := some "UNKNOWN" } "v0" "T" "s1"
      none 0 (by decide)).1⟩

/-! ## Batch trigger endpoint (`trigger_batch_scan`,
`app/api/v1/endpoints/scan.py` lines 80–108)

For each requested device id the endpoint inserts a new scan row (status
in_progress) unconditionally, then looks the device up and enqueues the
Celery task only when the lookup returned a row; the scan payload is
appended to `initiated_scans` after these calls.  The loop has NO error
handling: `supabase.post` and `supabase.get` raise through
`raise_for_status()` (`supabase_client.py` lines 33, 40) and `.delay`
raises on a broker fault, and the first raise aborts the remaining ids
and the endpoint.  As in the worker model, the attempted calls of a
request (each POST, each GET, and each enqueue) are indexed in order by a
failure oracle `fail : Nat → Bool`; a raised call leaves its table or the
broker queue unchanged. -/

structure ScanRow where
  id : String
  device_id : String
  scan_type : String
  status : String
  started_at : String
  vulnerabilities_found : Nat
  deriving DecidableEq

structure DeviceRow where
  id : String
  deriving DecidableEq

structure BatchSt where
  scans : List ScanRow
  devices : List DeviceRow
  queue : List (String × DeviceRow)
  deriving DecidableEq

structure BatchResp where
  job_id : String
  message : String
  initiated_scans : List ScanRow
  deriving DecidableEq

def mkScanRow (now sid did : String) : ScanRow :=
  { id := sid
    device_id := did
    scan_type := "web_ai"
    status := "in_progress"
    started_at := now
    vulnerabilities_found := 0 }

/-- Result of the `for device_id in device_ids` loop: the scan rows
successfully POSTed (in order), the enqueued work items, the
`initiated_scans` accumulator, and the exception that aborted the loop,
if any.  A raise after a successful POST leaves that id's row created
but absent from `initiated_scans` (the append at `scan.py` line 103 is
never reached). -/
structure BatchLoopOut where
  rows : List ScanRow
  queue : List (String × DeviceRow)
  initiated : List ScanRow
  err : Option String
  deriving DecidableEq

/-- The loop of `trigger_batch_scan` (`scan.py` lines 88–103): per id, in
code order, POST the scan row (may raise), GET the device by id (may
raise), and only when a device row came back, `.delay` the task (may
raise); the first raise aborts the remaining ids.  `mkId j` is the uuid
generated for the j-th id; `k` is the index of the next attempted
call. -/
def batchLoop (fail : Nat → Bool) (now : String) (mkId : Nat → String)
    (devices : List DeviceRow) :
    Nat → Nat → List String → BatchLoopOut
  | _, _, [] => ⟨[], [], [], none⟩
  | j, k, did :: rest =>
      if fail k then ⟨[], [], [], some sbErrMsg⟩
      else if fail (k + 1) then
        ⟨[mkScanRow now (mkId j) did], [], [], some sbErrMsg⟩
      else
        match devices.filter (fun d => d.id = did) with
        | [] =>
            let out := batchLoop fail now mkId devices (j + 1) (k + 2) rest
            ⟨mkScanRow now (mkId j) did :: out.rows, out.queue,
             mkScanRow now (mkId j) did :: out.initiated, out.err⟩
        | d :: _ =>
            if fail (k + 2) then
              ⟨[mkScanRow now (mkId j) did], [], [], some sbErrMsg⟩
            else
              let out := batchLoop fail now mkId devices (j + 1) (k + 3) rest
              ⟨mkScanRow now (mkId j) did :: out.rows,
               (mkId j, d) :: out.queue,
               mkScanRow now (mkId j) did :: out.initiated, out.err⟩

/-- Outcome of the endpoint call: the 202 payload, the 400 client error
for an empty id list, or an exception escaping the handler. -/
inductive BatchOutcome where
  | ok (resp : BatchResp) : BatchOutcome
  | clientError (code : Nat) : BatchOutcome
  | raisedOut (msg : String) : BatchOutcome
  deriving DecidableEq

/-- `trigger_batch_scan` (`scan.py` lines 80–108): an empty id list is a
400 client error before any job is created; otherwise the loop runs until
done or until its first raise, and whatever rows and enqueues happened
persist either way. -/
def trigger_batch_scan (fail : Nat → Bool) (now : String)
    (mkId : Nat → String) (job_id : String) (device_ids : List String)
    (st : BatchSt) : BatchSt × BatchOutcome :=
  if device_ids = [] then (st, .clientError 400)
  else
    match batchLoop fail now mkId st.devices 0 0 device_ids with
    | ⟨rows, enq, initiated, err⟩ =>
        ({ st with scans := st.scans ++ rows, queue := st.queue ++ enq },
         match err with
         | some e => .raisedOut e
         | none =>
             .ok { job_id := job_id
                   message := toString initiated.length ++ " scans initiated."
                   initiated_scans := initiated })

theorem batchLoop_spec (fail : Nat → Bool) (now : String)
    (mkId : Nat → String) (devices : List DeviceRow)
    (hf : ∀ n, fail n = false) (ids : List String) :
    ∀ j k : Nat,
      (batchLoop fail now mkId devices j k ids).err = none ∧
      ((batchLoop fail now mkId devices j k ids).initiated.map
          (fun row => row.device_id) = ids) ∧
      (∀ row ∈ (batchLoop fail now mkId devices j k ids).initiated,
        row.status = "in_progress") ∧
      (batchLoop fail now mkId devices j k ids).rows
        = (batchLoop fail now mkId devices j k ids).initiated ∧
      ((batchLoop fail now mkId devices j k ids).queue
        = (List.enumFrom j ids).filterMap (fun p =>
            match devices.filter (fun d => d.id = p.2) with
            | [] => none
            | d :: _ => some (mkId p.1, d))) := by
  induction ids with
  | nil =>
      intro j k
      exact ⟨rfl, rfl, fun row h => absurd h (List.not_mem_nil row), rfl, rfl⟩
  | cons did rest ih =>
      intro j k
      simp only [batchLoop, hf, Bool.false_eq_true, if_false]
      rcases hd : devices.filter (fun d => d.id = did) with _ | ⟨d, ds⟩
      · obtain ⟨ih0, ih1, ih2, ih3, ih4⟩ := ih (j + 1) (k + 2)
        simp only [hd]
        refine ⟨ih0, ?_, ?_, ?_, ?_⟩
        · simp only [List.map_cons, ih1]
          rfl
        · intro row hrow
          rcases List.mem_cons.mp hrow with h | h
          · subst h; rfl
          · exact ih2 row h
        · simp only [ih3]
        · simp only [List.enumFrom, List.filterMap_cons, hd]
          exact ih4
      · simp only [hd, hf, Bool.false_eq_true, if_false]
        obtain ⟨ih0, ih1, ih2, ih3, ih4⟩ := ih (j + 1) (k + 3)
        refine ⟨ih0, ?_, ?_, ?_, ?_⟩
        · simp only [List.map_cons, ih1]
          rfl
        · intro row hrow
          rcases List.mem_cons.mp hrow with h | h
          · subst h; rfl
          · exact ih2 row h
        · simp only [ih3]
        · simp only [List.enumFrom, List.filterMap_cons, hd, ih4]

/-- **C9, amended.** For every nonempty batch scan request in which no
REST or broker call raises: a new scan row with status in_progress is
created for each requested id, one initiated-scan entry per requested id
is returned (in request order), and exactly the ids whose device lookup
returned a row are enqueued — an id whose device is missing (a lookup
returning no row, the spec's invalid-id case) skips only its own enqueue
and never prevents job creation or enqueueing for the remaining ids.
The original claim fails for raised failures: the loop at `scan.py`
lines 88–103 has no error handling, so a raised lookup or a raised
enqueue aborts the remaining ids entirely — see the counterexample. -/
theorem C9_batch_scan_independent (fail : Nat → Bool) (now : String)
    (mkId : Nat → String) (job_id : String) (ids : List String)
    (st : BatchSt) (hne : ids ≠ []) (hf : ∀ n, fail n = false) :
    ∃ b, (trigger_batch_scan fail now mkId job_id ids st).2
        = BatchOutcome.ok b ∧
      b.initiated_scans.map (fun row => row.device_id) = ids ∧
      (∀ row ∈ b.initiated_scans, row.status = "in_progress") ∧
      (trigger_batch_scan fail now mkId job_id ids st).1.scans
        = st.scans ++ b.initiated_scans ∧
      (trigger_batch_scan fail now mkId job_id ids st).1.queue
        = st.queue ++ (List.enumFrom 0 ids).filterMap (fun p =>
            match st.devices.filter (fun d => d.id = p.2) with
            | [] => none
            | d :: _ => some (mkId p.1, d)) := by
  obtain ⟨h0, h1, h2, h3, h4⟩ :=
    batchLoop_spec fail now mkId st.devices hf ids 0 0
  rcases hB : batchLoop fail now mkId st.devices 0 0 ids
    with ⟨rows, enq, initiated, err⟩
  rw [hB] at h0 h1 h2 h3 h4
  subst h0
  refine ⟨{ job_id := job_id
            message := toString initiated.length ++ " scans initiated."
            initiated_scans := initiated }, ?_, h1, h2, ?_, ?_⟩
  · unfold trigger_batch_scan
    rw [if_neg hne, hB]
  · unfold trigger_batch_scan
    rw [if_neg hne, hB]
    show st.scans ++ rows = st.scans ++ initiated
    have h3' : rows = initiated := h3
    rw [h3']
  · unfold trigger_batch_scan
    rw [if_neg hne, hB]
    show st.queue ++ enq = st.queue ++ _
    have h4' : enq = (List.enumFrom 0 ids).filterMap (fun p =>
        match st.devices.filter (fun d => d.id = p.2) with
        | [] => none
        | d :: _ => some (mkId p.1, d)) := h4
    rw [h4']

/-- Devices table holding `d1` and `d2` (both ids of the request
exist). -/
def cexBatchStBoth : BatchSt :=
  { scans := []
    devices := [{ id := "d1" }, { id := "d2" }]
    queue := [] }

/-- Devices table holding `d1` and `d3` but not `d2` (the spec's
batch-with-one-invalid-id scenario). -/
def cexBatchSt : BatchSt :=
  { scans := []
    devices := [{ id := "d1" }, { id := "d3" }]
    queue := [] }

def uuidModel (n : Nat) : String := "u" ++ toString n

/-- Oracle raising exactly the third attempted call of the request — the
enqueue (`.delay`) of the first id. -/
def failEnqueueFirst : Nat → Bool := fun n => n == 2

/-- **C9, counterexample.** In a concrete batch request for `["d1", "d2"]`
where both devices exist and the enqueue of `d1` raises (a broker
fault), the loop aborts: `d1`'s row is created but never enqueued, `d2`
gets neither a scan row nor an enqueue, and the exception escapes the
endpoint — refuting "a failure to look up or to enqueue one device id
does not prevent job creation and enqueue for the remaining ids". -/
theorem C9_batch_scan_independent_counterexample :
    ((trigger_batch_scan failEnqueueFirst "T" uuidModel "job" ["d1", "d2"]
        cexBatchStBoth).1.scans.map (fun row => row.device_id)) = ["d1"] ∧
    (trigger_batch_scan failEnqueueFirst "T" uuidModel "job" ["d1", "d2"]
        cexBatchStBoth).1.queue = [] ∧
    (trigger_batch_scan failEnqueueFirst "T" uuidModel "job" ["d1", "d2"]
        cexBatchStBoth).2 = BatchOutcome.raisedOut sbErrMsg :=
  ⟨rfl, rfl, rfl⟩

theorem C9_batch_scan_independent_witness :
    ((trigger_batch_scan noFail "T" uuidModel "job" ["d1", "d2", "d3"]
        cexBatchSt).1.scans.map (fun row => row.device_id))
      = ["d1", "d2", "d3"] := by
  obtain ⟨b, _hok, hmap, _hst, hscans, _hq⟩ :=
    C9_batch_scan_independent noFail "T" uuidModel "job" ["d1", "d2", "d3"]
      cexBatchSt (by decide) (fun _ => rfl)
  rw [hscans]
  show (([] : List ScanRow) ++ b.initiated_scans).map _ = _
  rw [List.nil_append]
  exact hmap

/-! ## Scan listing endpoint (`list_scans`, `scan.py` lines 112–144)

The endpoint forwards equality filters, a date window on `completed_at`
(the `params` dict has a single `completed_at` key, so a given endDate
overwrites the startDate bound), and offset/limit to the REST backend; the
returned page is the matched rows after offset and limit.  The totals are
computed from `total = len(scans)` — the length of the returned page
itself. -/

structure ScanG where
  id : String
  device_id : String
  status : String
  scan_type : String
  completed_at : Option String
  deriving DecidableEq

structure ListResp where
  data : List ScanG
  currentPage : Nat
  totalPages : Nat
  totalItems : Nat
  itemsPerPage : Nat
  deriving DecidableEq

/-- The filters the `params` dict encodes (`scan.py` lines 122–132): a
falsy deviceId/status/scanType or the literal "all" adds no filter; the
single `completed_at` key holds `lte.endDate` when endDate is truthy,
else `gte.startDate` when startDate is truthy. -/
def scanMatches (deviceId status scanType startDate endDate : Option String)
    (row : ScanG) : Bool :=
  (match pyTruthy deviceId with
   | none => true
   | some d => row.device_id = d) &&
  (match pyTruthy status with
   | none => true
   | some s => if s = "all" then true else row.status = s) &&
  (match pyTruthy scanType with
   | none => true
   | some t => if t = "all" then true else row.scan_type = t) &&
  (match pyTruthy endDate with
   | some e => match row.completed_at with
     | none => false
     | some ca => ca ≤ e
   | none => match pyTruthy startDate with
     | some s0 => match row.completed_at with
       | none => false
       | some ca => s0 ≤ ca
     | none => true)

/-- The page of rows the REST backend returns: matched rows after the
offset `(page-1)*limit` and the `limit`. -/
def listPageRows (tbl : List ScanG)
    (deviceId status scanType : Option String) (page limit : Nat)
    (startDate endDate : Option String) : List ScanG :=
  ((tbl.filter (scanMatches deviceId status scanType startDate endDate)).drop
      ((page - 1) * limit)).take limit

/-- `list_scans` (`scan.py` lines 112–144): offset = (page−1)·limit, the
page is drop/take over the matched rows, and `total = len(scans)` is the
page's own length; `totalPages = total // limit + (1 if total % limit
else 0)`. -/
def list_scans (tbl : List ScanG)
    (deviceId status scanType : Option String) (page limit : Nat)
    (startDate endDate : Option String) : ListResp :=
  { data := listPageRows tbl deviceId status scanType page limit
      startDate endDate
    currentPage := page
    totalPages :=
      (listPageRows tbl deviceId status scanType page limit
          startDate endDate).length / limit
        + (if (listPageRows tbl deviceId status scanType page limit
            startDate endDate).length % limit ≠ 0 then 1 else 0)
    totalItems := (listPageRows tbl deviceId status scanType page limit
        startDate endDate).length
    itemsPerPage := limit }

theorem C10_list_totals_from_page (tbl : List ScanG)
    (deviceId status scanType : Option String) (page limit : Nat)
    (startDate endDate : Option String)
    (hp : 1 ≤ page) (hl : 1 ≤ limit) :
    (list_scans tbl deviceId status scanType page limit startDate
        endDate).totalItems
      = (list_scans tbl deviceId status scanType page limit startDate
          endDate).data.length ∧
    (list_scans tbl deviceId status scanType page limit startDate
        endDate).totalItems ≤ limit ∧
    (list_scans tbl deviceId status scanType page limit startDate
        endDate).totalPages
      = (list_scans tbl deviceId status scanType page limit startDate
          endDate).totalItems / limit
        + (if (list_scans tbl deviceId status scanType page limit startDate
            endDate).totalItems % limit ≠ 0 then 1 else 0) ∧
    (list_scans tbl deviceId status scanType page limit startDate
        endDate).data
      = ((tbl.filter
          (scanMatches deviceId status scanType startDate endDate)).drop
          ((page - 1) * limit)).take limit := by
  refine ⟨rfl, ?_, rfl, rfl⟩
  show (listPageRows tbl deviceId status scanType page limit startDate
      endDate).length ≤ limit
  exact List.length_take_le limit _

def cexListTbl : List ScanG :=
  [{ id := "a", device_id := "d1", status := "completed",
     scan_type := "web_ai", completed_at := some "2024" },
   { id := "b", device_id := "d2", status := "in_progress",
     scan_type := "web_ai", completed_at := none }]

theorem C10_list_totals_from_page_witness :
    (list_scans cexListTbl none none none 1 1 none none).totalItems ≤ 1 :=
  (C10_list_totals_from_page cexListTbl none none none 1 1 none none
    (by decide) (by decide)).2.1
